import Mathlib

/-!
# compressed_image_transport: encode/decode dispatch core

A shallow embedding of `compression_common.cpp` (`decompressJPEG`,
`decodeCompressedImage`, `compressJPEG`, `encodeImage`) together with the
properties of the dispatch logic, the format-tag protocol and the buffer
geometry.

Conventions of the embedding

* `std::string` is a list of characters, a byte buffer is a list of naturals.
* The libraries the code links against (TurboJPEG, OpenCV, cv_bridge and the
  `sensor_msgs::image_encodings` registry) are parameters, gathered in
  `Collaborators`.  Every invocation of a codec entry point is recorded in the
  `calls` component of a `Run`, so that "is attempted", "is invoked" and
  "is applied" are statements about that record.
* A C++ exception is the `error` case of `Run.result`.
* `int` is the 32-bit two's complement integer of the usual targets: a
  product that leaves its range wraps around, which is what the compiled code
  does (the C++ standard leaves it undefined).  `std::size_t` arithmetic is
  taken modulo `2^64`, `uint32` fields modulo `2^32`.
-/

namespace compressed_image_transport

/-! ## Strings and buffers -/

/-- A `std::string`. -/
abbrev CppString := List Char

/-- A `std::vector<uint8_t>`. -/
abbrev Bytes := List Nat

/-- Result of `std::string::find(char)`: `none` stands for `npos`. -/
def findChar (c : Char) : CppString → Option Nat
  | [] => none
  | x :: xs => if x = c then some 0 else (findChar c xs).map (· + 1)

/-- Result of `std::string::find(const char*)`: the first position at which
`pat` occurs, `none` standing for `npos`. -/
def findStr (pat : CppString) : CppString → Option Nat
  | [] => if pat = [] then some 0 else none
  | x :: xs =>
    if pat.isPrefixOf (x :: xs) then some 0 else (findStr pat xs).map (· + 1)

/-- The call `s.substr(pos, n)` for `pos ≤ s.size()`. -/
def substr (s : CppString) (pos n : Nat) : CppString := (s.drop pos).take n

/-- The call `s.substr(pos)` for `pos ≤ s.size()`. -/
def substrFrom (s : CppString) (pos : Nat) : CppString := s.drop pos

/-! ## Machine integers -/

def INT_MAX : Int := 2147483647

def INT_MIN : Int := -2147483648

/-- Conversion of an `int` to `uint32_t`. -/
def toUInt32 (x : Int) : Nat := (x % 4294967296).toNat

/-- Conversion of an `int` to `std::size_t` (64 bit). -/
def toSizeT (x : Int) : Nat := (x % 18446744073709551616).toNat

/-- Conversion of a `uint32_t` to `int`. -/
def toInt (x : Nat) : Int :=
  if x % 4294967296 < 2147483648 then (x % 4294967296 : Nat) else (x % 4294967296 : Nat) - 4294967296

/-- The value of `std::vector<uint8_t>::max_size()` on an LP64 target. -/
def VECTOR_MAX_SIZE : Nat := 9223372036854775807

/-! ## Messages -/

/-- The `std_msgs::Header`, passed through unchanged. -/
structure Header where
  seq : Nat
  stamp : Nat
  frame_id : CppString
  deriving DecidableEq, Repr

/-- The `sensor_msgs::Image`. -/
structure Image where
  header : Header
  height : Nat
  width : Nat
  encoding : CppString
  is_bigendian : Nat
  step : Nat
  data : Bytes
  deriving DecidableEq, Repr

/-- The `sensor_msgs::CompressedImage`. -/
structure CompressedImage where
  header : Header
  format : CppString
  data : Bytes
  deriving DecidableEq, Repr

/-- A freshly constructed `sensor_msgs::Image`. -/
def Image.new : Image :=
  { header := ⟨0, 0, []⟩, height := 0, width := 0, encoding := [],
    is_bigendian := 0, step := 0, data := [] }

/-- A freshly constructed `sensor_msgs::CompressedImage`. -/
def CompressedImage.new : CompressedImage :=
  { header := ⟨0, 0, []⟩, format := [], data := [] }

/-- Compression formats of `compression_common.h`. -/
def UNDEFINED : Int := -1

def JPEG : Int := 0

def PNG : Int := 1

/-! ## Constants of the linked libraries -/

namespace enc

/-- Modelled from the spec: the names of `sensor_msgs::image_encodings`
(the registry of section 3: mono8, rgb8, bgr8, rgba8, bgra8, rgb16, ...);
the header that declares them is not part of the sources. -/
def MONO8 : CppString := "mono8".toList

def RGB8 : CppString := "rgb8".toList

def BGR8 : CppString := "bgr8".toList

def RGBA8 : CppString := "rgba8".toList

def BGRA8 : CppString := "bgra8".toList

def RGB16 : CppString := "rgb16".toList

def BGR16 : CppString := "bgr16".toList

def RGBA16 : CppString := "rgba16".toList

def BGRA16 : CppString := "bgra16".toList

end enc

/-- Pixel formats of TurboJPEG used by the code. -/
inductive TJPF
  | TJPF_GRAY
  | TJPF_RGB
  | TJPF_BGR
  | TJPF_RGBA
  | TJPF_BGRA
  deriving DecidableEq, Repr

/-- Chroma subsampling options of TurboJPEG used by the code. -/
inductive TJSAMP
  | TJSAMP_444
  | TJSAMP_GRAY
  deriving DecidableEq, Repr

/-- Modelled from the spec: the colorspace class that the header parse reports
for a grayscale JPEG ("JPEG's grayscale colorspace", section 4.2); the value is
that of `TJCS_GRAY` in `turbojpeg.h`, which is not part of the sources. -/
def TJCS_GRAY : Int := 2

/-- Modelled from the spec: the key of the quality parameter in the codec
parameter list (section 4.5); the value is that of `cv::IMWRITE_JPEG_QUALITY`
in OpenCV, which is not part of the sources. -/
def IMWRITE_JPEG_QUALITY : Int := 1

/-- The colorspace conversions requested from `cv::cvtColor`. -/
inductive ColorConversionCode
  | CV_BGR2RGB
  | CV_BGR2RGBA
  | CV_BGR2BGRA
  | CV_RGB2BGR
  | CV_RGB2BGRA
  | CV_RGB2RGBA
  deriving DecidableEq, Repr

/-- What the code reads of a `cv::Mat`. -/
structure Mat where
  rows : Int
  cols : Int
  channels : Int
  elemSize : Nat
  data : Bytes
  deriving DecidableEq, Repr

/-- The output of `tjDecompressHeader3`, four values of type `int`. -/
structure JpegHeader where
  width : Int
  height : Int
  jpegSubsamp : Int
  jpegColorspace : Int
  deriving DecidableEq, Repr

/-- The `cv_bridge::CvImage`. -/
structure CvImage where
  header : Header
  encoding : CppString
  image : Mat
  deriving DecidableEq, Repr

/-! ## Runs: recorded library calls and exceptions -/

/-- An invocation of a codec entry point. -/
inductive Call
  | tjInitDecompress
  | tjDecompressHeader3 (data : Bytes)
  | tjDecompress2 (data : Bytes) (width height : Int) (pixelFormat : TJPF)
  | tjInitCompress
  | tjCompress2 (width step height : Int) (pixelFormat : TJPF)
      (jpegSubsamp : TJSAMP) (jpegQual : Int)
  | tjDestroy
  | imdecode (data : Bytes) (flags : Int)
  | cvtColor (src : Mat) (code : ColorConversionCode)
  | toCvShare (encoding : CppString)
  | imencode (ext : CppString) (params : List Int)
  deriving DecidableEq, Repr

/-- The exceptions that leave the functions of `compression_common.cpp`.

* `null_pointer`: "Call to decode a compressed image received a NULL pointer."
* `unsupported_channels n`: "Unsupported number of channels: n"
* `zero_dimension rows cols`: "Could not extract meaningful image. One of the
  dimensions was 0. Rows: rows, columns: cols."
* `imencode_failed ext`: "cv::imencode (jpeg) failed on input image" and its
  png sibling
* `jpeg_requires_8_16 e`: "JPEG compression requires 8/16-bit color format
  (input format is: e)"
* `png_requires_8_16 e`: "PNG compression requires 8/16-bit encoded color
  format (input format is: e)"
* `unknown_compression_type`: "Unknown compression type, valid options are
  jpeg(0) and png(1)"
* `length_error`: the `std::length_error` of `std::vector::resize`
* `out_of_range i`: a read of `params[i]` outside the vector
* `library what`: an exception thrown inside a linked library -/
inductive Exn
  | null_pointer
  | unsupported_channels (n : Int)
  | zero_dimension (rows cols : Int)
  | imencode_failed (ext : CppString)
  | jpeg_requires_8_16 (encoding : CppString)
  | png_requires_8_16 (encoding : CppString)
  | unknown_compression_type
  | length_error
  | out_of_range (index : Nat)
  | library (what : String)
  deriving DecidableEq, Repr

/-- A run of a function: the codec entry points it invoked, in order, and its
value or the exception that ended it. -/
structure Run (α : Type) where
  calls : List Call
  result : Except Exn α

namespace Run

def pure {α : Type} (a : α) : Run α := ⟨[], .ok a⟩

def bind {α β : Type} (x : Run α) (f : α → Run β) : Run β :=
  match x.result with
  | .error e => ⟨x.calls, .error e⟩
  | .ok a => ⟨x.calls ++ (f a).calls, (f a).result⟩

/-- The statement `throw e`. -/
def throw {α : Type} (e : Exn) : Run α := ⟨[], .error e⟩

/-- A call of a library entry point that cannot throw. -/
def call {α : Type} (c : Call) (a : α) : Run α := ⟨[c], .ok a⟩

/-- A call of a library entry point that may throw. -/
def callExcept {α : Type} (c : Call) (r : Except String α) : Run α :=
  match r with
  | .ok a => ⟨[c], .ok a⟩
  | .error w => ⟨[c], .error (.library w)⟩

/-- A registry lookup that may throw; it is not a codec call. -/
def lookup {α : Type} (r : Except String α) : Run α :=
  match r with
  | .ok a => ⟨[], .ok a⟩
  | .error w => ⟨[], .error (.library w)⟩

end Run

instance : Monad Run where
  pure := Run.pure
  bind := Run.bind

/-- The linked libraries. -/
structure Collaborators where
  /-- The function `sensor_msgs::image_encodings::isColor`. -/
  isColor : CppString → Bool
  /-- The function `sensor_msgs::image_encodings::bitDepth`; throws on an unknown name. -/
  bitDepth : CppString → Except String Int
  /-- The function `sensor_msgs::image_encodings::numChannels`; throws on an unknown name. -/
  numChannels : CppString → Except String Int
  /-- The header parse of TurboJPEG; `none` is a nonzero return value. -/
  tjDecompressHeader3 : Bytes → Option JpegHeader
  /-- The decompress primitive of TurboJPEG, called with pitch 0 and flags 0:
  the pixel bytes it writes, `none` being a nonzero return value. -/
  tjDecompress2 : Bytes → Int → Int → TJPF → Option Bytes
  /-- The compress primitive of TurboJPEG, called with `TJFLAG_FASTDCT`:
  the JPEG buffer, `none` being a nonzero return value. -/
  tjCompress2 : Bytes → Int → Int → Int → TJPF → TJSAMP → Int → Option Bytes
  /-- The function `cv::imdecode`. -/
  imdecode : Bytes → Int → Except String Mat
  /-- The function `cv::cvtColor`. -/
  cvtColor : Mat → ColorConversionCode → Except String Mat
  /-- The function `cv_bridge::toCvShare`, given the target encoding. -/
  toCvShare : Image → CppString → Except String CvImage
  /-- The function `cv::imencode`: `ok none` is the return value `false`. -/
  imencode : CppString → Mat → List Int → Except String (Option Bytes)

/-- The value of type `int` that a mathematical integer wraps to. -/
def wrapInt (x : Int) : Int := (x + 2147483648) % 4294967296 - 2147483648

/-- Product of two `int` values, with wrap-around. -/
def mulInt (a b : Int) : Int := wrapInt (a * b)

/-- The call `v.resize(n)` on an empty `std::vector<uint8_t>`, `n` an `int`. -/
def resize (n : Int) : Run Bytes :=
  if toSizeT n ≤ VECTOR_MAX_SIZE then Run.pure (List.replicate (toSizeT n) 0)
  else Run.throw .length_error

/-- The buffer `buf` after a library wrote `px` from its start. -/
def writeInto (buf px : Bytes) : Bytes := px.take buf.length ++ buf.drop px.length

/-! ## decompressJPEG -/

/-- The two statements that every supported branch of `decompressJPEG` starts
with, for `c` bytes per pixel: `ret->data.resize(height*width*c);
ret->step = width*c;`.  For one byte per pixel the source writes
`resize(height*width)` and takes the step from the width without a product.
The products are products of `int`, evaluated from the left, and the source
does not check their range.  The branch of the autodetection also sets
`ret->encoding`. -/
def allocate (ret : Image) (width height : Int) (c : Int) (encoding : CppString) :
    Run Image := do
  let n : Int := if c = 1 then mulInt height width else mulInt (mulInt height width) c
  let data ← resize n
  let step : Int := if c = 1 then (ret.width : Int) else mulInt width c
  return { ret with data := data, step := toUInt32 step, encoding := encoding }

/-- The chain of comparisons of `decompressJPEG` on the declared encoding:
the bytes per pixel, the TurboJPEG pixel format and the encoding of the result,
or `none` for an encoding that TurboJPEG does not support. -/
def pixelLayout (source_encoding : CppString) (jpegColor : Int) :
    Option (Int × TJPF × CppString) :=
  if source_encoding = enc.MONO8 then some (1, .TJPF_GRAY, source_encoding)
  else if source_encoding = enc.RGB8 then some (3, .TJPF_RGB, source_encoding)
  else if source_encoding = enc.BGR8 then some (3, .TJPF_BGR, source_encoding)
  else if source_encoding = enc.RGBA8 then some (4, .TJPF_RGBA, source_encoding)
  else if source_encoding = enc.BGRA8 then some (4, .TJPF_BGRA, source_encoding)
  else if source_encoding = [] then
    if jpegColor = TJCS_GRAY then some (1, .TJPF_GRAY, enc.MONO8)
    else some (3, .TJPF_RGB, enc.RGB8)
  else none

/-- The function `decompressJPEG`; `ok none` is the null pointer. -/
def decompressJPEG (C : Collaborators) (data : Bytes) (source_encoding : CppString)
    (header : Header) : Run (Option Image) := do
  Run.call .tjInitDecompress ()
  match ← Run.call (.tjDecompressHeader3 data) (C.tjDecompressHeader3 data) with
  | none => return none
  | some hdr =>
    let width := hdr.width
    let height := hdr.height
    let jpegColor := hdr.jpegColorspace
    let ret : Image :=
      { Image.new with header := header, width := toUInt32 width,
                       height := toUInt32 height, encoding := source_encoding }
    match pixelLayout source_encoding jpegColor with
    | none =>
      Run.call .tjDestroy ()
      return none
    | some (c, pixelFormat, encoding) =>
      let ret ← allocate ret width height c encoding
      match ← Run.call (.tjDecompress2 data width height pixelFormat)
          (C.tjDecompress2 data width height pixelFormat) with
      | none =>
        Run.call .tjDestroy ()
        return none
      | some px =>
        Run.call .tjDestroy ()
        return some { ret with data := writeInto ret.data px }

/-! ## decodeCompressedImage -/

/-- Modelled from the spec: the method `cv_bridge::CvImage::toImageMsg`, which
is not part of the sources: the raw image carries the header and the encoding
of the `CvImage`, the dimensions of its matrix, a row stride computed from the
matrix layout and the matrix bytes (section 4.3, "Output"). -/
def CvImage.toImageMsg (cv : CvImage) : Image :=
  { header := cv.header,
    height := toUInt32 cv.image.rows,
    width := toUInt32 cv.image.cols,
    encoding := cv.encoding,
    is_bigendian := 0,
    step := (toSizeT cv.image.cols * cv.image.elemSize) % 4294967296,
    data := cv.image.data }

/-- One guarded statement `if (cond) cv::cvtColor(image, image, code);`. -/
def cvtColorIf (C : Collaborators) (cond : Bool) (code : ColorConversionCode)
    (image : Mat) : Run Mat :=
  if cond then Run.callExcept (.cvtColor image code) (C.cvtColor image code) else Run.pure image

/-- The test `image->data.size() > 4 && image->data[0] == 0xFF && image->data[1] == 0xD8`. -/
def looksLikeJPEG (data : Bytes) : Bool :=
  decide (data.length > 4) && (data.get? 0 == some 255) && (data.get? 1 == some 216)

/-- The first block of `decodeCompressedImage`: `image_encoding` and
`compressed_encoding`, both empty when the format holds no semicolon. -/
def splitFormat (format : CppString) : CppString × CppString :=
  match findChar ';' format with
  | some split_pos => (substr format 0 split_pos, substrFrom format split_pos)
  | none => ([], [])

/-- The branch `split_pos == npos` of `decodeCompressedImage`: the encoding is
inferred from the channel count of the decoded matrix. -/
def legacyEncoding (cv_ptr : CvImage) : Run CvImage :=
  if cv_ptr.image.channels = 1 then
    Run.pure { cv_ptr with encoding := enc.MONO8 }
  else if cv_ptr.image.channels = 3 then
    Run.pure { cv_ptr with encoding := enc.BGR8 }
  else
    Run.throw (.unsupported_channels cv_ptr.image.channels)

/-- The branch `split_pos != npos` of `decodeCompressedImage`: the encoding is
the declared one and the color transformation of the encoder is reverted. -/
def declaredEncoding (C : Collaborators) (cv_ptr : CvImage)
    (image_encoding compressed_encoding : CppString) : Run CvImage :=
  let cv_ptr := { cv_ptr with encoding := image_encoding }
  if C.isColor image_encoding then
    let compressed_bgr_image := (findStr "compressed bgr".toList compressed_encoding).isSome
    if compressed_bgr_image then do
      let m := cv_ptr.image
      let m ← cvtColorIf C (image_encoding = enc.RGB8 ∨ image_encoding = enc.RGB16)
        .CV_BGR2RGB m
      let m ← cvtColorIf C (image_encoding = enc.RGBA8 ∨ image_encoding = enc.RGBA16)
        .CV_BGR2RGBA m
      let m ← cvtColorIf C (image_encoding = enc.BGRA8 ∨ image_encoding = enc.BGRA16)
        .CV_BGR2BGRA m
      Run.pure { cv_ptr with image := m }
    else do
      let m := cv_ptr.image
      let m ← cvtColorIf C (image_encoding = enc.BGR8 ∨ image_encoding = enc.BGR16)
        .CV_RGB2BGR m
      let m ← cvtColorIf C (image_encoding = enc.BGRA8 ∨ image_encoding = enc.BGRA16)
        .CV_RGB2BGRA m
      let m ← cvtColorIf C (image_encoding = enc.RGBA8 ∨ image_encoding = enc.RGBA16)
        .CV_RGB2RGBA m
      Run.pure { cv_ptr with image := m }
  else
    Run.pure cv_ptr

/-- The last statement of `decodeCompressedImage`: the message, unless a
dimension is zero. -/
def extractImage (cv_ptr : CvImage) : Run Image :=
  if cv_ptr.image.rows > 0 ∧ cv_ptr.image.cols > 0 then
    Run.pure cv_ptr.toImageMsg
  else
    Run.throw (.zero_dimension cv_ptr.image.rows cv_ptr.image.cols)

/-- The general decode: `decodeCompressedImage` from the construction of
`cv_ptr` to its end. -/
def generalDecode (C : Collaborators) (image : CompressedImage)
    (image_encoding compressed_encoding : CppString) (decode_flag : Int) : Run Image := do
  let decoded ← Run.callExcept (.imdecode image.data decode_flag)
    (C.imdecode image.data decode_flag)
  let cv_ptr : CvImage := { header := image.header, encoding := [], image := decoded }
  let cv_ptr ←
    (match findChar ';' image.format with
    | none => legacyEncoding cv_ptr
    | some _ => declaredEncoding C cv_ptr image_encoding compressed_encoding)
  extractImage cv_ptr

/-- The function `decodeCompressedImage`; `image = none` is the null pointer. -/
def decodeCompressedImage (C : Collaborators) (image : Option CompressedImage)
    (decode_flag : Int) : Run Image :=
  match image with
  | none => Run.throw .null_pointer
  | some image => do
    let (image_encoding, compressed_encoding) := splitFormat image.format
    if looksLikeJPEG image.data then
      match ← decompressJPEG C image.data image_encoding image.header with
      | some decoded => return decoded
      | none => generalDecode C image image_encoding compressed_encoding decode_flag
    else
      generalDecode C image image_encoding compressed_encoding decode_flag

/-! ## compressJPEG -/

/-- How the scan of the parameter list ended: with a quality, or at a read of
`params[i]` for an `i` outside the vector (from where the behaviour is
undefined), or still running when the iteration budget was used up. -/
inductive ScanResult
  | quality (jpeg_quality : Int)
  | outside (i : Nat)
  | running
  deriving DecidableEq, Repr

/-- The indices at which `params` was read, in order, and how the scan ended. -/
structure Scan where
  reads : List Nat
  result : ScanResult
  deriving DecidableEq, Repr

/-- The loop `for(std::size_t i = 0; i < bound; i += 2)` of `compressJPEG`,
from the state `i`, `jpeg_quality`, for at most `fuel` iterations. -/
def scanLoop (params : List Int) (bound : Nat) : Nat → Nat → Int → Scan
  | 0, _, _ => ⟨[], .running⟩
  | fuel + 1, i, jpeg_quality =>
    if i < bound then
      match params.get? i with
      | none => ⟨[i], .outside i⟩
      | some key =>
        if key = IMWRITE_JPEG_QUALITY then
          match params.get? (i + 1) with
          | none => ⟨[i, i + 1], .outside (i + 1)⟩
          | some value =>
            let rest := scanLoop params bound fuel ((i + 2) % 18446744073709551616) value
            ⟨i :: (i + 1) :: rest.reads, rest.result⟩
        else
          let rest := scanLoop params bound fuel ((i + 2) % 18446744073709551616) jpeg_quality
          ⟨i :: rest.reads, rest.result⟩
    else ⟨[], .quality jpeg_quality⟩

/-- The quality extraction of `compressJPEG`: `jpeg_quality` starts at 95 and
the loop runs up to `params.size()-1`, a `std::size_t`. -/
def jpegQualityScan (params : List Int) : Scan :=
  scanLoop params (toSizeT ((params.length : Int) - 1)) (params.length + 1) 0 95

/-- The function `compressJPEG`, from the scan of the parameters on. -/
def compressWithQuality (C : Collaborators) (image : Image) (compressed : CompressedImage)
    (jpeg_quality : Int) : Run (Option CompressedImage) := do
  let width := toInt image.width
  let height := toInt image.height
  let step := toInt image.step
  let sel : Option (TJPF × TJSAMP) :=
    if image.encoding = enc.MONO8 then some (.TJPF_GRAY, .TJSAMP_GRAY)
    else if image.encoding = enc.RGB8 then some (.TJPF_RGB, .TJSAMP_444)
    else if image.encoding = enc.BGR8 then some (.TJPF_BGR, .TJSAMP_444)
    else if image.encoding = enc.RGBA8 then some (.TJPF_RGBA, .TJSAMP_444)
    else if image.encoding = enc.BGRA8 then some (.TJPF_BGRA, .TJSAMP_444)
    else none
  match sel with
  | none =>
    Run.call .tjDestroy ()
    return none
  | some (pixelFormat, jpegSubsamp) =>
    match ← Run.call (.tjCompress2 width step height pixelFormat jpegSubsamp jpeg_quality)
        (C.tjCompress2 image.data width step height pixelFormat jpegSubsamp jpeg_quality) with
    | some jpegBuf =>
      Run.call .tjDestroy ()
      return some { compressed with data := jpegBuf }
    | none =>
      Run.call .tjDestroy ()
      return none

/-- The function `compressJPEG`; `ok none` is the null pointer.  A scan that
leaves the vector ends the run with `Exn.out_of_range`. -/
def compressJPEG (C : Collaborators) (image : Image) (params : List Int) :
    Run (Option CompressedImage) := do
  let compressed : CompressedImage :=
    { CompressedImage.new with
      header := image.header,
      format := image.encoding ++ ("; jpeg compressed ".toList ++ image.encoding) }
  Run.call .tjInitCompress ()
  match (jpegQualityScan params).result with
  | .quality jpeg_quality => compressWithQuality C image compressed jpeg_quality
  | .outside i => Run.throw (.out_of_range i)
  | .running => Run.throw (.out_of_range params.length)

/-! ## encodeImage -/

/-- The function `encodeImage`.  The compression ratio that the source
computes for its debug log (a wrapped product of the matrix dimensions and a
`float` division) has no influence on the value or on the exceptions of the
function and is left out. -/
def encodeImage (C : Collaborators) (message : Image) (encode_flag : Int)
    (params : List Int) : Run CompressedImage := do
  let compressed : CompressedImage :=
    { CompressedImage.new with header := message.header, format := message.encoding }
  let bitDepth ← Run.lookup (C.bitDepth message.encoding)
  let _numChannels ← Run.lookup (C.numChannels message.encoding)
  if encode_flag = JPEG then
    let compressed := { compressed with format := compressed.format ++ "; jpeg compressed ".toList }
    if bitDepth = 8 ∨ bitDepth = 16 then
      let targetFormat : CppString := if C.isColor message.encoding then "bgr8".toList else []
      let compressed :=
        if C.isColor message.encoding then
          { compressed with format := compressed.format ++ targetFormat }
        else compressed
      let cv_ptr ← Run.callExcept (.toCvShare targetFormat) (C.toCvShare message targetFormat)
      match ← Run.callExcept (.imencode ".jpg".toList params)
          (C.imencode ".jpg".toList cv_ptr.image params) with
      | some data => return { compressed with data := data }
      | none => Run.throw (.imencode_failed ".jpg".toList)
    else
      Run.throw (.jpeg_requires_8_16 message.encoding)
  else if encode_flag = PNG then
    let compressed := { compressed with format := compressed.format ++ "; png compressed ".toList }
    if bitDepth = 8 ∨ bitDepth = 16 then
      let targetFormat : CppString :=
        if C.isColor message.encoding then "bgr".toList ++ (toString bitDepth).toList else []
      let compressed :=
        if C.isColor message.encoding then
          { compressed with format := compressed.format ++ targetFormat }
        else compressed
      let cv_ptr ← Run.callExcept (.toCvShare targetFormat) (C.toCvShare message targetFormat)
      match ← Run.callExcept (.imencode ".png".toList params)
          (C.imencode ".png".toList cv_ptr.image params) with
      | some data => return { compressed with data := data }
      | none => Run.throw (.imencode_failed ".png".toList)
    else
      Run.throw (.png_requires_8_16 message.encoding)
  else
    Run.throw .unknown_compression_type

/-! ## A small instance of the libraries

A toy codec, used to evaluate the functions at concrete inputs.  A toy JPEG is
`0xFF 0xD8 width height colorspace` followed by pixel bytes; any other payload
of at least five bytes is `_ _ cols rows channels` followed by pixel bytes. -/

namespace sample

def isColor (e : CppString) : Bool :=
  decide (e ∈ [enc.RGB8, enc.BGR8, enc.RGBA8, enc.BGRA8,
               enc.RGB16, enc.BGR16, enc.RGBA16, enc.BGRA16])

def bitDepth (e : CppString) : Except String Int :=
  if e ∈ [enc.MONO8, enc.RGB8, enc.BGR8, enc.RGBA8, enc.BGRA8] then .ok 8
  else if e ∈ ["mono16".toList, enc.RGB16, enc.BGR16, enc.RGBA16, enc.BGRA16] then .ok 16
  else if e = "32FC1".toList then .ok 32
  else .error "Unknown encoding"

def numChannels (e : CppString) : Except String Int :=
  if e ∈ [enc.MONO8, "mono16".toList, "32FC1".toList] then .ok 1
  else if e ∈ [enc.RGB8, enc.BGR8, enc.RGB16, enc.BGR16] then .ok 3
  else if e ∈ [enc.RGBA8, enc.BGRA8, enc.RGBA16, enc.BGRA16] then .ok 4
  else .error "Unknown encoding"

def tjDecompressHeader3 (data : Bytes) : Option JpegHeader :=
  match data with
  | 255 :: 216 :: w :: h :: cs :: _ =>
    if 1 ≤ w ∧ 1 ≤ h then some ⟨w, h, 0, cs⟩ else none
  | _ => none

def tjDecompress2 (data : Bytes) (_width _height : Int) (_pixelFormat : TJPF) : Option Bytes :=
  if data.length < 6 then none else some (data.drop 5)

def imdecode (data : Bytes) (_flags : Int) : Except String Mat :=
  match data with
  | 255 :: 216 :: w :: h :: cs :: px =>
    if cs = 2 then .ok ⟨h, w, 1, 1, px⟩ else .ok ⟨h, w, 3, 3, px⟩
  | _ :: _ :: cols :: rows :: channels :: px => .ok ⟨rows, cols, channels, channels, px⟩
  | _ => .ok ⟨0, 0, 1, 1, []⟩

def cvtColor (m : Mat) (code : ColorConversionCode) : Except String Mat :=
  if m.channels ≠ 3 then .error "cvtColor: 3 channels expected"
  else match code with
    | .CV_BGR2RGB => .ok { m with data := m.data.reverse }
    | .CV_RGB2BGR => .ok { m with data := m.data.reverse }
    | .CV_BGR2RGBA => .ok { m with channels := 4, elemSize := 4, data := m.data.reverse ++ [255] }
    | .CV_RGB2BGRA => .ok { m with channels := 4, elemSize := 4, data := m.data.reverse ++ [255] }
    | .CV_BGR2BGRA => .ok { m with channels := 4, elemSize := 4, data := m.data ++ [255] }
    | .CV_RGB2RGBA => .ok { m with channels := 4, elemSize := 4, data := m.data ++ [255] }

def toCvShare (message : Image) (encoding : CppString) : Except String CvImage :=
  .ok { header := message.header,
        encoding := if encoding = [] then message.encoding else encoding,
        image := ⟨message.height, message.width, 3, 3, message.data⟩ }

def imencode (ext : CppString) (m : Mat) (_params : List Int) : Except String (Option Bytes) :=
  if ext = ".jpg".toList then
    .ok (some (255 :: 216 :: m.cols.toNat :: m.rows.toNat :: 1 :: m.data))
  else if ext = ".png".toList then
    .ok (some (137 :: 80 :: m.cols.toNat :: m.rows.toNat :: m.channels.toNat :: m.data))
  else .ok none

def tjCompress2 (src : Bytes) (width _step height : Int) (_pixelFormat : TJPF)
    (_jpegSubsamp : TJSAMP) (_jpegQual : Int) : Option Bytes :=
  some (255 :: 216 :: width.toNat :: height.toNat :: 1 :: src)

/-- The toy libraries. -/
def libs : Collaborators :=
  { isColor := isColor, bitDepth := bitDepth, numChannels := numChannels,
    tjDecompressHeader3 := tjDecompressHeader3, tjDecompress2 := tjDecompress2,
    tjCompress2 := tjCompress2, imdecode := imdecode, cvtColor := cvtColor,
    toCvShare := toCvShare, imencode := imencode }

/-- The toy libraries, with a header parse that announces 50000 by 50000
pixels for every payload. -/
def oversized : Collaborators :=
  { libs with tjDecompressHeader3 := fun _ => some ⟨50000, 50000, 0, 1⟩ }

/-- A header to pass through. -/
def hdr : Header := ⟨7, 42, "camera".toList⟩

/-- A toy color JPEG of 2 by 1 pixels. -/
def colorJpeg : Bytes := [255, 216, 2, 1, 1, 10, 20, 30, 40, 50, 60]

/-- A toy grayscale JPEG of 2 by 1 pixels. -/
def grayJpeg : Bytes := [255, 216, 2, 1, 2, 10, 20]

/-- A toy PNG of 1 by 1 pixel with 3 channels. -/
def colorPng : Bytes := [137, 80, 1, 1, 3, 10, 20, 30]

end sample

/-! ## Vocabulary of the properties -/

/-- The calls that belong to the fast JPEG decode (TurboJPEG). -/
def Call.isTurbo : Call → Bool
  | .tjInitDecompress => true
  | .tjDecompressHeader3 _ => true
  | .tjDecompress2 _ _ _ _ => true
  | .tjDestroy => true
  | _ => false

/-- The matrix a call converts and the conversion it requests, when the call
is a `cv::cvtColor`. -/
def Call.conversion : Call → Option (Mat × ColorConversionCode)
  | .cvtColor src code => some (src, code)
  | _ => none

/-- The applicability check of the fast JPEG path, in words of the
specification: more than 4 bytes, the first two being 0xFF 0xD8. -/
def startsLikeJPEG (data : Bytes) : Prop :=
  4 < data.length ∧ data.get? 0 = some 255 ∧ data.get? 1 = some 216

instance (data : Bytes) : Decidable (startsLikeJPEG data) := by
  unfold startsLikeJPEG; infer_instance

/-- The part of a format tag before its first semicolon. -/
def declaredPart (format : CppString) : CppString :=
  format.takeWhile (fun x => decide (x ≠ ';'))

/-- The part of a format tag from its first semicolon onward. -/
def descriptorPart (format : CppString) : CppString :=
  format.dropWhile (fun x => decide (x ≠ ';'))

/-- The conversion table for pixels stored in BGR order: rgb8/rgb16 get
BGR->RGB, rgba8/rgba16 get BGR->RGBA, bgra8/bgra16 get BGR->BGRA, anything
else (bgr8 and bgr16 among them) gets none. -/
def conversionFromBGR (e : CppString) : Option ColorConversionCode :=
  if e = "rgb8".toList ∨ e = "rgb16".toList then some .CV_BGR2RGB
  else if e = "rgba8".toList ∨ e = "rgba16".toList then some .CV_BGR2RGBA
  else if e = "bgra8".toList ∨ e = "bgra16".toList then some .CV_BGR2BGRA
  else none

/-- The conversion table for pixels stored in RGB order: bgr8/bgr16 get
RGB->BGR, bgra8/bgra16 get RGB->BGRA, rgba8/rgba16 get RGB->RGBA, anything
else (rgb8 and rgb16 among them) gets none. -/
def conversionFromRGB (e : CppString) : Option ColorConversionCode :=
  if e = "bgr8".toList ∨ e = "bgr16".toList then some .CV_RGB2BGR
  else if e = "bgra8".toList ∨ e = "bgra16".toList then some .CV_RGB2BGRA
  else if e = "rgba8".toList ∨ e = "rgba16".toList then some .CV_RGB2RGBA
  else none

/-- The conversion that the tables select for a declared encoding: none when
the encoding is not a color format, else the entry for the stored order. -/
def selectedConversion (isColor : Bool) (storedBGR : Bool) (e : CppString) :
    Option ColorConversionCode :=
  if isColor then
    if storedBGR then conversionFromBGR e else conversionFromRGB e
  else none

/-- The intermediate layout that the encoder announces in the format tag:
"bgr8" for a color encoding under JPEG, "bgr" followed by the bit depth for a
color encoding under PNG, nothing for an encoding that is not a color
format. -/
def intermediateLayout (isColor : Bool) (method : Int) (bitDepth : Int) : CppString :=
  if isColor then
    if method = JPEG then "bgr8".toList
    else if bitDepth = 8 then "bgr8".toList else "bgr16".toList
  else []

/-- The words that name the method in the format tag. -/
def methodWords (method : Int) : CppString :=
  if method = JPEG then "; jpeg compressed ".toList else "; png compressed ".toList

/-- The file extension that selects the method in `cv::imencode`. -/
def methodExt (method : Int) : CppString :=
  if method = JPEG then ".jpg".toList else ".png".toList

/-- The collaborator part of `encodeImage` (the "OpenCV-ros bridge" and
"Compress image" statements), for a message under construction. -/
def bridgeAndCompress (C : Collaborators) (message : Image) (params : List Int)
    (compressed : CompressedImage) (targetFormat ext : CppString) : Run CompressedImage :=
  Run.callExcept (.toCvShare targetFormat) (C.toCvShare message targetFormat) >>= fun cv_ptr =>
  Run.callExcept (.imencode ext params) (C.imencode ext cv_ptr.image params) >>= fun r =>
    match r with
    | some data => Run.pure { compressed with data := data }
    | none => Run.throw (.imencode_failed ext)

/-- The quality that a list of key/value pairs asks for, starting from a
default: the value paired with the quality key, the last such pair winning. -/
def pairedQuality : List Int → Int → Int
  | key :: value :: rest, jpeg_quality =>
    pairedQuality rest (if key = IMWRITE_JPEG_QUALITY then value else jpeg_quality)
  | _, jpeg_quality => jpeg_quality

/-! ## Properties -/

section run_lemmas

variable {α β : Type}

@[simp] theorem Run.pure_calls (a : α) : (Pure.pure a : Run α).calls = [] := rfl

@[simp] theorem Run.pure_result (a : α) : (Pure.pure a : Run α).result = .ok a := rfl

@[simp] theorem Run.pure_calls2 (a : α) : (Run.pure a).calls = [] := rfl

@[simp] theorem Run.pure_result2 (a : α) : (Run.pure a).result = .ok a := rfl

@[simp] theorem Run.throw_calls (e : Exn) : (Run.throw e : Run α).calls = [] := rfl

@[simp] theorem Run.throw_result (e : Exn) : (Run.throw e : Run α).result = .error e := rfl

@[simp] theorem Run.call_calls (c : Call) (a : α) : (Run.call c a).calls = [c] := rfl

@[simp] theorem Run.call_result (c : Call) (a : α) : (Run.call c a).result = .ok a := rfl

@[simp] theorem Run.callExcept_calls (c : Call) (r : Except String α) :
    (Run.callExcept c r).calls = [c] := by
  cases r <;> rfl

theorem Run.bind_def (x : Run α) (f : α → Run β) : (x >>= f) = Run.bind x f := rfl

theorem Run.bind_ok (x : Run α) (f : α → Run β) (a : α) (h : x.result = .ok a) :
    (x >>= f) = ⟨x.calls ++ (f a).calls, (f a).result⟩ := by
  show Run.bind x f = _
  unfold Run.bind
  rw [h]

theorem Run.bind_error (x : Run α) (f : α → Run β) (e : Exn) (h : x.result = .error e) :
    (x >>= f) = ⟨x.calls, .error e⟩ := by
  show Run.bind x f = _
  unfold Run.bind
  rw [h]

end run_lemmas

/-! ### Strings -/

theorem findChar_eq_none_iff (c : Char) (s : CppString) : findChar c s = none ↔ c ∉ s := by
  induction s with
  | nil => simp [findChar]
  | cons x xs ih =>
    unfold findChar
    by_cases h : x = c
    · simp [h]
    · simp [h, ih, Ne.symm h]

theorem findChar_some_split (c : Char) (s : CppString) (i : Nat) (h : findChar c s = some i) :
    s.take i = s.takeWhile (fun x => decide (x ≠ c)) ∧
    s.drop i = s.dropWhile (fun x => decide (x ≠ c)) := by
  induction s generalizing i with
  | nil => simp [findChar] at h
  | cons x xs ih =>
    unfold findChar at h
    by_cases hx : x = c
    · simp [hx] at h
      subst h
      simp [hx, List.takeWhile, List.dropWhile]
    · simp [hx] at h
      obtain ⟨j, hj, rfl⟩ := h
      have := ih j hj
      simp [hx, List.takeWhile, List.dropWhile, this.1, this.2]

theorem findStr_isSome_iff (pat s : CppString) : (findStr pat s).isSome = true ↔ pat <:+: s := by
  induction s with
  | nil =>
    unfold findStr
    by_cases h : pat = [] <;> simp [h]
  | cons x xs ih =>
    unfold findStr
    by_cases h : pat.isPrefixOf (x :: xs) = true
    · simp only [h, if_true, Option.isSome_some, true_iff]
      exact (List.isPrefixOf_iff_prefix.mp h).isInfix
    · have hb : pat.isPrefixOf (x :: xs) = false := Bool.eq_false_iff.mpr h
      rw [hb]
      simp only [Bool.false_eq_true, if_false, Option.isSome_map']
      rw [ih, List.infix_cons_iff]
      constructor
      · exact Or.inr
      · rintro (hp | hi)
        · exact absurd (List.isPrefixOf_iff_prefix.mpr hp) h
        · exact hi

theorem splitFormat_of_mem (format : CppString) (h : ';' ∈ format) :
    splitFormat format =
      (format.takeWhile (fun x => decide (x ≠ ';')), format.dropWhile (fun x => decide (x ≠ ';'))) := by
  unfold splitFormat
  cases hf : findChar ';' format with
  | none => exact absurd h ((findChar_eq_none_iff _ _).mp hf)
  | some i =>
    have := findChar_some_split _ _ _ hf
    simp [substr, substrFrom, this.1, this.2]

theorem splitFormat_of_not_mem (format : CppString) (h : ';' ∉ format) :
    splitFormat format = ([], []) := by
  unfold splitFormat
  rw [(findChar_eq_none_iff _ _).mpr h]

/-! ### Recorded calls -/

theorem resize_calls (n : Int) : (resize n).calls = [] := by
  unfold resize; split <;> rfl

theorem bind_calls_nil {α β : Type} (x : Run α) (f : α → Run β) (hx : x.calls = [])
    (hf : ∀ a, (f a).calls = []) : (x >>= f).calls = [] := by
  show (Run.bind x f).calls = []
  unfold Run.bind
  split <;> simp [hx, hf]

theorem allocate_eq (ret : Image) (w h c : Int) (e : CppString) :
    allocate ret w h c e =
      (resize (if c = 1 then mulInt h w else mulInt (mulInt h w) c) >>= fun data =>
        Run.pure { ret with
          data := data,
          step := toUInt32 (if c = 1 then (ret.width : Int) else mulInt w c),
          encoding := e }) := rfl

theorem allocate_calls (ret : Image) (w h c : Int) (e : CppString) :
    (allocate ret w h c e).calls = [] := by
  rw [allocate_eq]
  exact bind_calls_nil _ _ (resize_calls _) (fun _ => rfl)

theorem decompressJPEG_calls (C : Collaborators) (data : Bytes) (e : CppString) (h : Header) :
    ∃ rest, (decompressJPEG C data e h).calls = Call.tjInitDecompress :: rest ∧
      ∀ c ∈ rest, c.isTurbo = true := by
  unfold decompressJPEG
  simp only [Run.bind_def, Run.bind, Run.call_result, Run.call_calls]
  cases hh : C.tjDecompressHeader3 data with
  | none => simp [Call.isTurbo]
  | some hdr =>
    simp only []
    split
    · simp [Call.isTurbo]
    · rename_i c pf enc hsel
      cases ha : (allocate _ hdr.width hdr.height c enc).result with
      | error ex => simp [Call.isTurbo, allocate_calls]
      | ok ret =>
        simp only []
        cases hd : C.tjDecompress2 data hdr.width hdr.height pf <;>
          simp [Call.isTurbo, allocate_calls]

@[simp] theorem Run.pure_bind {α β : Type} (a : α) (f : α → Run β) : (Run.pure a >>= f) = f a := by
  show Run.bind (Run.pure a) f = f a
  simp [Run.bind, Run.pure]

theorem legacyEncoding_calls (cv : CvImage) : (legacyEncoding cv).calls = [] := by
  unfold legacyEncoding
  split
  · rfl
  · split <;> rfl

theorem extractImage_calls (cv : CvImage) : (extractImage cv).calls = [] := by
  unfold extractImage
  split <;> rfl

theorem chain_eq {β : Type} (C : Collaborators) (b1 b2 b3 : Bool)
    (c1 c2 c3 : ColorConversionCode) (m : Mat) (g : Mat → β)
    (h12 : b1 = true → b2 = false) (h13 : b1 = true → b3 = false)
    (h23 : b2 = true → b3 = false) :
    (cvtColorIf C b1 c1 m >>= fun m => cvtColorIf C b2 c2 m >>= fun m =>
        cvtColorIf C b3 c3 m >>= fun m => Run.pure (g m)) =
      match (if b1 = true then some c1 else if b2 = true then some c2
             else if b3 = true then some c3 else none) with
      | none => Run.pure (g m)
      | some code =>
        Run.callExcept (.cvtColor m code) (C.cvtColor m code) >>= fun m => Run.pure (g m) := by
  cases b1 <;> cases b2 <;> cases b3 <;> simp_all [cvtColorIf]

theorem enc_distinct (e : CppString) :
    ((e = enc.RGB8 ∨ e = enc.RGB16) → ¬ (e = enc.RGBA8 ∨ e = enc.RGBA16)) ∧
    ((e = enc.RGB8 ∨ e = enc.RGB16) → ¬ (e = enc.BGRA8 ∨ e = enc.BGRA16)) ∧
    ((e = enc.RGBA8 ∨ e = enc.RGBA16) → ¬ (e = enc.BGRA8 ∨ e = enc.BGRA16)) ∧
    ((e = enc.BGR8 ∨ e = enc.BGR16) → ¬ (e = enc.BGRA8 ∨ e = enc.BGRA16)) ∧
    ((e = enc.BGR8 ∨ e = enc.BGR16) → ¬ (e = enc.RGBA8 ∨ e = enc.RGBA16)) ∧
    ((e = enc.BGRA8 ∨ e = enc.BGRA16) → ¬ (e = enc.RGBA8 ∨ e = enc.RGBA16)) := by
  refine ⟨?_, ?_, ?_, ?_, ?_, ?_⟩ <;> rintro (rfl | rfl) <;> decide

theorem conversionFromBGR_eq (e : CppString) :
    (if decide (e = enc.RGB8 ∨ e = enc.RGB16) = true then some ColorConversionCode.CV_BGR2RGB
     else if decide (e = enc.RGBA8 ∨ e = enc.RGBA16) = true then
       some ColorConversionCode.CV_BGR2RGBA
     else if decide (e = enc.BGRA8 ∨ e = enc.BGRA16) = true then
       some ColorConversionCode.CV_BGR2BGRA
     else none) = conversionFromBGR e := by
  unfold conversionFromBGR
  simp only [decide_eq_true_eq, enc.RGB8, enc.RGB16, enc.RGBA8, enc.RGBA16, enc.BGRA8,
    enc.BGRA16]

theorem conversionFromRGB_eq (e : CppString) :
    (if decide (e = enc.BGR8 ∨ e = enc.BGR16) = true then some ColorConversionCode.CV_RGB2BGR
     else if decide (e = enc.BGRA8 ∨ e = enc.BGRA16) = true then
       some ColorConversionCode.CV_RGB2BGRA
     else if decide (e = enc.RGBA8 ∨ e = enc.RGBA16) = true then
       some ColorConversionCode.CV_RGB2RGBA
     else none) = conversionFromRGB e := by
  unfold conversionFromRGB
  simp only [decide_eq_true_eq, enc.BGR8, enc.BGR16, enc.RGBA8, enc.RGBA16, enc.BGRA8,
    enc.BGRA16]

/-- The branch of the declared encoding, in one step: the conversion that the
tables select is requested on the matrix of `cv_ptr` and its output replaces
that matrix; without a selected conversion the matrix stays. -/
theorem declaredEncoding_eq (C : Collaborators) (cv : CvImage) (e d : CppString) :
    declaredEncoding C cv e d =
      match selectedConversion (C.isColor e) (findStr "compressed bgr".toList d).isSome e with
      | none => Run.pure ⟨cv.header, e, cv.image⟩
      | some code =>
        Run.callExcept (.cvtColor cv.image code) (C.cvtColor cv.image code) >>= fun m =>
          Run.pure ⟨cv.header, e, m⟩ := by
  obtain ⟨d1, d2, d3, d4, d5, d6⟩ := enc_distinct e
  unfold declaredEncoding selectedConversion
  by_cases hc : C.isColor e = true
  · simp only [hc, if_true]
    by_cases hb : (findStr "compressed bgr".toList d).isSome = true
    · simp only [hb, if_true]
      rw [chain_eq C _ _ _ _ _ _ _ _ (by simpa using d1) (by simpa using d2)
        (by simpa using d3), conversionFromBGR_eq]
    · have hb3 : (findStr "compressed bgr".toList d).isSome = false := Bool.eq_false_iff.mpr hb
      simp only [hb3, Bool.false_eq_true, if_false]
      rw [chain_eq C _ _ _ _ _ _ _ _ (by simpa using d4) (by simpa using d5)
        (by simpa using d6), conversionFromRGB_eq]
  · have hc3 : C.isColor e = false := Bool.eq_false_iff.mpr hc
    simp [hc3]

/-- The conversions that the general decode requests for a declared encoding. -/
theorem declaredEncoding_calls (C : Collaborators) (cv : CvImage) (e d : CppString) :
    (declaredEncoding C cv e d).calls =
      (selectedConversion (C.isColor e) (findStr "compressed bgr".toList d).isSome
        e).toList.map (Call.cvtColor cv.image) := by
  rw [declaredEncoding_eq]
  cases selectedConversion (C.isColor e) (findStr "compressed bgr".toList d).isSome e with
  | none => rfl
  | some code =>
    show (Run.bind _ _).calls = _
    unfold Run.bind
    cases C.cvtColor cv.image code <;> simp [Run.callExcept, Run.pure]

/-- The calls of the general decode: `cv::imdecode`, then the conversions. -/
theorem generalDecode_calls (C : Collaborators) (image : CompressedImage) (e d : CppString)
    (flag : Int) :
    (generalDecode C image e d flag).calls =
      Call.imdecode image.data flag ::
        (match C.imdecode image.data flag with
         | .error _ => []
         | .ok m =>
           match findChar ';' image.format with
           | none => []
           | some _ => (declaredEncoding C ⟨image.header, [], m⟩ e d).calls) := by
  unfold generalDecode
  cases hdec : C.imdecode image.data flag with
  | error w => rfl
  | ok m =>
    rw [Run.bind_ok _ _ m (by simp [Run.callExcept])]
    simp only [Run.callExcept_calls, List.singleton_append, List.cons.injEq, true_and]
    cases hf : findChar ';' image.format with
    | none =>
      simp only []
      cases hl : (legacyEncoding ⟨image.header, [], m⟩).result with
      | error ex => rw [Run.bind_error _ _ ex hl]; exact legacyEncoding_calls _
      | ok cv => rw [Run.bind_ok _ _ cv hl]; simp [legacyEncoding_calls, extractImage_calls]
    | some i =>
      simp only []
      cases hl : (declaredEncoding C ⟨image.header, [], m⟩ e d).result with
      | error ex => rw [Run.bind_error _ _ ex hl]
      | ok cv => rw [Run.bind_ok _ _ cv hl]; simp [extractImage_calls]

theorem generalDecode_calls_opencv (C : Collaborators) (image : CompressedImage) (e d : CppString)
    (flag : Int) : ∀ c ∈ (generalDecode C image e d flag).calls, c.isTurbo = false := by
  rw [generalDecode_calls]
  intro c hc
  rcases List.mem_cons.mp hc with rfl | hc
  · rfl
  · cases hdec : C.imdecode image.data flag with
    | error w => simp [hdec] at hc
    | ok m =>
      cases hf : findChar ';' image.format with
      | none => simp [hdec, hf] at hc
      | some i =>
        simp only [hdec, hf, declaredEncoding_calls] at hc
        obtain ⟨code, _, rfl⟩ := List.mem_map.mp hc
        rfl

theorem looksLikeJPEG_iff (data : Bytes) : looksLikeJPEG data = true ↔ startsLikeJPEG data := by
  unfold looksLikeJPEG startsLikeJPEG
  simp [Bool.and_eq_true, and_assoc]


theorem findChar_isSome_of_mem (format : CppString) (h : ';' ∈ format) :
    ∃ i, findChar ';' format = some i := by
  cases hf : findChar ';' format with
  | none => exact absurd h ((findChar_eq_none_iff _ _).mp hf)
  | some i => exact ⟨i, rfl⟩

/-! ### Buffers of the fast path -/

theorem Run.bind_result_ok {α β : Type} (x : Run α) (f : α → Run β) (b : β)
    (h : (x >>= f).result = .ok b) : ∃ a, x.result = .ok a ∧ (f a).result = .ok b := by
  change (Run.bind x f).result = .ok b at h
  unfold Run.bind at h
  cases hx : x.result with
  | error e => rw [hx] at h; cases h
  | ok a => rw [hx] at h; exact ⟨a, rfl, h⟩

theorem wrapInt_of_range (x : Int) (h0 : INT_MIN ≤ x) (h1 : x ≤ INT_MAX) : wrapInt x = x := by
  unfold wrapInt
  unfold INT_MIN at h0
  unfold INT_MAX at h1
  omega

theorem resize_ok (n : Int) (buf : Bytes) (h : (resize n).result = .ok buf) (h0 : 0 ≤ n)
    (h1 : n ≤ INT_MAX) : (buf.length : Int) = n := by
  unfold resize at h
  split at h
  · simp only [Run.pure_result2, Except.ok.injEq] at h
    subst h
    simp only [List.length_replicate, toSizeT]
    unfold INT_MAX at h1
    omega
  · cases h

theorem toUInt32_of_range (x : Int) (h0 : 0 ≤ x) (h1 : x ≤ INT_MAX) : (toUInt32 x : Int) = x := by
  unfold toUInt32
  unfold INT_MAX at h1
  omega

theorem writeInto_length (buf px : Bytes) : (writeInto buf px).length = buf.length := by
  unfold writeInto
  simp only [List.length_append, List.length_take, List.length_drop]
  omega

theorem allocate_ok (ret r : Image) (w h c : Int) (e : CppString)
    (hr : (allocate ret w h c e).result = .ok r)
    (hc : c = 1 ∨ c = 3 ∨ c = 4) (hw : 0 ≤ w) (hh : 0 ≤ h)
    (hsize : h * w * 4 ≤ INT_MAX) (hstep : w * 4 ≤ INT_MAX)
    (hwidth : (ret.width : Int) = w) :
    r.width = ret.width ∧ r.height = ret.height ∧ r.header = ret.header ∧ r.encoding = e ∧
    (r.step : Int) = w * c ∧ (r.data.length : Int) = h * w * c := by
  rw [allocate_eq] at hr
  obtain ⟨buf, hbuf, hr⟩ := Run.bind_result_ok _ _ _ hr
  simp only [Run.pure_result2, Except.ok.injEq] at hr
  subst hr
  have hmin : INT_MIN ≤ 0 := by decide
  have hp0 : 0 ≤ h * w := Int.mul_nonneg hh hw
  have hc0 : 0 ≤ c ∧ c ≤ 4 := by rcases hc with rfl | rfl | rfl <;> decide
  have hp1 : h * w ≤ INT_MAX := by nlinarith
  have hn0 : 0 ≤ h * w * c := Int.mul_nonneg hp0 hc0.1
  have hn1 : h * w * c ≤ INT_MAX := by nlinarith
  have hs0 : 0 ≤ w * c := Int.mul_nonneg hw hc0.1
  have hs1 : w * c ≤ INT_MAX := by nlinarith
  have hw1 : w ≤ INT_MAX := by nlinarith
  have hn : (if c = 1 then mulInt h w else mulInt (mulInt h w) c) = h * w * c := by
    unfold mulInt
    rw [wrapInt_of_range _ (le_trans hmin hp0) hp1]
    by_cases h1 : c = 1
    · rw [if_pos h1, h1, mul_one]
    · rw [if_neg h1, wrapInt_of_range _ (le_trans hmin hn0) hn1]
  have hst : (if c = 1 then (ret.width : Int) else mulInt w c) = w * c := by
    unfold mulInt
    by_cases h1 : c = 1
    · rw [if_pos h1, h1, mul_one, hwidth]
    · rw [if_neg h1, wrapInt_of_range _ (le_trans hmin hs0) hs1]
  rw [hn] at hbuf
  refine ⟨rfl, rfl, rfl, rfl, ?_, ?_⟩
  · show (toUInt32 _ : Int) = w * c
    rw [hst]
    exact toUInt32_of_range _ hs0 hs1
  · show (buf.length : Int) = h * w * c
    exact resize_ok _ _ hbuf hn0 hn1

theorem decompressJPEG_some (C : Collaborators) (data : Bytes) (e : CppString) (header : Header)
    (hdr : JpegHeader) (img : Image) (hhdr : C.tjDecompressHeader3 data = some hdr)
    (hret : (decompressJPEG C data e header).result = .ok (some img)) :
    ∃ c pf en ret px,
      pixelLayout e hdr.jpegColorspace = some (c, pf, en) ∧
      (allocate { Image.new with header := header, width := toUInt32 hdr.width,
                                 height := toUInt32 hdr.height, encoding := e }
          hdr.width hdr.height c en).result = .ok ret ∧
      C.tjDecompress2 data hdr.width hdr.height pf = some px ∧
      img = { ret with data := writeInto ret.data px } := by
  unfold decompressJPEG at hret
  obtain ⟨_, -, hret⟩ := Run.bind_result_ok _ _ _ hret
  obtain ⟨oh, hoh, hret⟩ := Run.bind_result_ok _ _ _ hret
  simp only [Run.call_result, Except.ok.injEq] at hoh
  rw [hhdr] at hoh
  subst hoh
  simp only [] at hret
  cases hsel : pixelLayout e hdr.jpegColorspace with
  | none =>
    rw [hsel] at hret
    simp only [] at hret
    obtain ⟨_, -, hret⟩ := Run.bind_result_ok _ _ _ hret
    cases hret
  | some t =>
    obtain ⟨c, pf, en⟩ := t
    rw [hsel] at hret
    simp only [] at hret
    obtain ⟨ret, hal, hret⟩ := Run.bind_result_ok _ _ _ hret
    obtain ⟨opx, hopx, hret⟩ := Run.bind_result_ok _ _ _ hret
    simp only [Run.call_result, Except.ok.injEq] at hopx
    cases opx with
    | none =>
      simp only [] at hret
      obtain ⟨_, -, hret⟩ := Run.bind_result_ok _ _ _ hret
      cases hret
    | some px =>
      simp only [] at hret
      obtain ⟨_, -, hret⟩ := Run.bind_result_ok _ _ _ hret
      simp only [Run.pure_result, Except.ok.injEq, Option.some.injEq] at hret
      exact ⟨c, pf, en, ret, px, rfl, hal, hopx, hret.symm⟩

theorem pixelLayout_some (e en : CppString) (cs c : Int) (pf : TJPF)
    (h : pixelLayout e cs = some (c, pf, en)) :
    (c = 1 ∨ c = 3 ∨ c = 4) ∧
    (e = "mono8".toList → c = 1) ∧
    (e = "rgb8".toList ∨ e = "bgr8".toList → c = 3) ∧
    (e = "rgba8".toList ∨ e = "bgra8".toList → c = 4) ∧
    (e = [] → (cs = TJCS_GRAY → c = 1 ∧ en = "mono8".toList) ∧
              (cs ≠ TJCS_GRAY → c = 3 ∧ en = "rgb8".toList)) ∧
    (e ≠ [] → en = e) := by
  unfold pixelLayout at h
  simp only [enc.MONO8, enc.RGB8, enc.BGR8, enc.RGBA8, enc.BGRA8] at h
  split_ifs at h with h1 h2 h3 h4 h5 h6 h7 <;>
    simp only [Option.some.injEq, Prod.mk.injEq] at h <;>
    obtain ⟨rfl, rfl, rfl⟩ := h
  · subst h1; simp
  · subst h2; simp
  · subst h3; simp
  · subst h4; simp
  · subst h5; simp
  · subst h6; simp [h7]
  · subst h6; simp [h7]

/-! ### Encodings of decoded images -/

theorem allocate_encoding (ret r : Image) (w h c : Int) (e : CppString)
    (hr : (allocate ret w h c e).result = .ok r) : r.encoding = e := by
  rw [allocate_eq] at hr
  obtain ⟨buf, -, hr⟩ := Run.bind_result_ok _ _ _ hr
  simp only [Run.pure_result2, Except.ok.injEq] at hr
  subst hr
  rfl

theorem decompressJPEG_header (C : Collaborators) (data : Bytes) (e : CppString) (header : Header)
    (img : Image) (hret : (decompressJPEG C data e header).result = .ok (some img)) :
    ∃ hdr, C.tjDecompressHeader3 data = some hdr := by
  cases hh : C.tjDecompressHeader3 data with
  | some hdr => exact ⟨hdr, rfl⟩
  | none =>
    unfold decompressJPEG at hret
    obtain ⟨_, -, hret⟩ := Run.bind_result_ok _ _ _ hret
    obtain ⟨oh, hoh, hret⟩ := Run.bind_result_ok _ _ _ hret
    simp only [Run.call_result, Except.ok.injEq] at hoh
    rw [hh] at hoh
    subst hoh
    cases hret

/-- The encoding of an image returned by the fast path: the declared one, or
the autodetected one when none is declared. -/
theorem decompressJPEG_encoding (C : Collaborators) (data : Bytes) (e : CppString)
    (header : Header) (hdr : JpegHeader) (img : Image)
    (hhdr : C.tjDecompressHeader3 data = some hdr)
    (hret : (decompressJPEG C data e header).result = .ok (some img)) :
    (e ≠ [] → img.encoding = e) ∧
    (e = [] → (hdr.jpegColorspace = TJCS_GRAY → img.encoding = "mono8".toList) ∧
              (hdr.jpegColorspace ≠ TJCS_GRAY → img.encoding = "rgb8".toList)) := by
  obtain ⟨c, pf, en, ret, px, hsel, hal, -, rfl⟩ :=
    decompressJPEG_some C data e header hdr img hhdr hret
  obtain ⟨-, -, -, -, h0, hne⟩ := pixelLayout_some _ _ _ _ _ hsel
  have henc : ret.encoding = en := allocate_encoding _ _ _ _ _ _ hal
  refine ⟨fun h => ?_, fun h => ⟨fun hg => ?_, fun hg => ?_⟩⟩
  · show ret.encoding = e
    rw [henc, hne h]
  · show ret.encoding = _
    rw [henc, ((h0 h).1 hg).2]
  · show ret.encoding = _
    rw [henc, ((h0 h).2 hg).2]

theorem extractImage_ok (cv : CvImage) (img : Image) (h : (extractImage cv).result = .ok img) :
    img = cv.toImageMsg ∧ 0 < cv.image.rows ∧ 0 < cv.image.cols := by
  unfold extractImage at h
  split at h
  · rename_i hpos
    simp only [Run.pure_result2, Except.ok.injEq] at h
    exact ⟨h.symm, hpos.1, hpos.2⟩
  · cases h

theorem cvtColorIf_bind_encoding (C : Collaborators) (b : Bool) (code : ColorConversionCode)
    (m : Mat) (f : Mat → Run CvImage) (e : CppString) (cv : CvImage)
    (hf : ∀ m' cv', (f m').result = .ok cv' → cv'.encoding = e)
    (h : (cvtColorIf C b code m >>= f).result = .ok cv) : cv.encoding = e := by
  obtain ⟨m', -, h⟩ := Run.bind_result_ok _ _ _ h
  exact hf m' cv h

theorem declaredEncoding_encoding (C : Collaborators) (cv0 cv : CvImage) (e d : CppString)
    (h : (declaredEncoding C cv0 e d).result = .ok cv) : cv.encoding = e := by
  unfold declaredEncoding at h
  have hpure : ∀ (m' : Mat) (cv' : CvImage),
      (Run.pure ({ header := cv0.header, encoding := e, image := m' } : CvImage)).result
        = .ok cv' → cv'.encoding = e := by
    intro m' cv' h'
    simp only [Run.pure_result2, Except.ok.injEq] at h'
    rw [← h']
  split at h
  · simp only [] at h
    split at h
    · refine cvtColorIf_bind_encoding C _ _ _ _ e cv (fun m1 cv1 h1 => ?_) h
      refine cvtColorIf_bind_encoding C _ _ _ _ e cv1 (fun m2 cv2 h2 => ?_) h1
      exact cvtColorIf_bind_encoding C _ _ _ _ e cv2 hpure h2
    · refine cvtColorIf_bind_encoding C _ _ _ _ e cv (fun m1 cv1 h1 => ?_) h
      refine cvtColorIf_bind_encoding C _ _ _ _ e cv1 (fun m2 cv2 h2 => ?_) h1
      exact cvtColorIf_bind_encoding C _ _ _ _ e cv2 hpure h2
  · simp only [Run.pure_result2, Except.ok.injEq] at h
    rw [← h]

/-- The encoding of an image returned by the general decode for a tag with a
semicolon. -/
theorem generalDecode_encoding_declared (C : Collaborators) (image : CompressedImage)
    (e d : CppString) (flag : Int) (img : Image) (i : Nat)
    (hf : findChar ';' image.format = some i)
    (h : (generalDecode C image e d flag).result = .ok img) : img.encoding = e := by
  unfold generalDecode at h
  obtain ⟨m, -, h⟩ := Run.bind_result_ok _ _ _ h
  obtain ⟨cv, hcv, h⟩ := Run.bind_result_ok _ _ _ h
  simp only [hf] at hcv
  obtain ⟨rfl, -, -⟩ := extractImage_ok _ _ h
  exact declaredEncoding_encoding C _ _ _ _ hcv

/-- The general decode of a legacy tag: the outcome for a decoded matrix. -/
theorem generalDecode_legacy (C : Collaborators) (image : CompressedImage)
    (e d : CppString) (flag : Int) (m : Mat)
    (hf : findChar ';' image.format = none)
    (hdec : C.imdecode image.data flag = .ok m) (hr : 0 < m.rows) (hc : 0 < m.cols) :
    (m.channels = 1 → (generalDecode C image e d flag).result
        = .ok (CvImage.toImageMsg ⟨image.header, enc.MONO8, m⟩)) ∧
    (m.channels = 3 → (generalDecode C image e d flag).result
        = .ok (CvImage.toImageMsg ⟨image.header, enc.BGR8, m⟩)) := by
  unfold generalDecode
  rw [Run.bind_ok _ _ m (by simp [Run.callExcept, hdec])]
  simp only [hf]
  constructor
  · intro h1
    have hl : legacyEncoding ⟨image.header, [], m⟩ = Run.pure ⟨image.header, enc.MONO8, m⟩ := by
      simp [legacyEncoding, h1]
    rw [hl, Run.pure_bind]
    simp [extractImage, hr, hc]
  · intro h3
    have hl : legacyEncoding ⟨image.header, [], m⟩ = Run.pure ⟨image.header, enc.BGR8, m⟩ := by
      simp [legacyEncoding, h3]
    rw [hl, Run.pure_bind]
    simp [extractImage, hr, hc]

/-- The four ways a call of `decodeCompressedImage` on a non-null image runs. -/
theorem decode_cases (C : Collaborators) (image : CompressedImage) (flag : Int) :
    (¬ startsLikeJPEG image.data ∧
      decodeCompressedImage C (some image) flag =
        generalDecode C image (splitFormat image.format).1 (splitFormat image.format).2 flag) ∨
    (startsLikeJPEG image.data ∧ ∃ ex,
      (decompressJPEG C image.data (splitFormat image.format).1 image.header).result
        = .error ex ∧
      decodeCompressedImage C (some image) flag =
        ⟨(decompressJPEG C image.data (splitFormat image.format).1 image.header).calls,
          .error ex⟩) ∨
    (startsLikeJPEG image.data ∧
      (decompressJPEG C image.data (splitFormat image.format).1 image.header).result
        = .ok none ∧
      decodeCompressedImage C (some image) flag =
        ⟨(decompressJPEG C image.data (splitFormat image.format).1 image.header).calls ++
          (generalDecode C image (splitFormat image.format).1 (splitFormat image.format).2
            flag).calls,
         (generalDecode C image (splitFormat image.format).1 (splitFormat image.format).2
            flag).result⟩) ∨
    (startsLikeJPEG image.data ∧ ∃ decoded,
      (decompressJPEG C image.data (splitFormat image.format).1 image.header).result
        = .ok (some decoded) ∧
      decodeCompressedImage C (some image) flag =
        ⟨(decompressJPEG C image.data (splitFormat image.format).1 image.header).calls,
          .ok decoded⟩) := by
  by_cases hj : startsLikeJPEG image.data
  · have hl : looksLikeJPEG image.data = true := (looksLikeJPEG_iff _).mpr hj
    have hrun : decodeCompressedImage C (some image) flag =
        (decompressJPEG C image.data (splitFormat image.format).1 image.header >>= fun r =>
          match r with
          | some decoded => Run.pure decoded
          | none => generalDecode C image (splitFormat image.format).1
              (splitFormat image.format).2 flag) := by
      simp only [decodeCompressedImage, hl, if_true]
      rfl
    cases hfr : (decompressJPEG C image.data (splitFormat image.format).1 image.header).result with
    | error ex =>
      right; left
      exact ⟨hj, ex, rfl, by rw [hrun, Run.bind_error _ _ ex hfr]⟩
    | ok r =>
      cases r with
      | none =>
        right; right; left
        exact ⟨hj, rfl, by rw [hrun, Run.bind_ok _ _ none hfr]⟩
      | some decoded =>
        right; right; right
        refine ⟨hj, decoded, rfl, ?_⟩
        rw [hrun, Run.bind_ok _ _ (some decoded) hfr]
        simp
  · left
    have hl : looksLikeJPEG image.data = false :=
      Bool.eq_false_iff.mpr (fun h => hj ((looksLikeJPEG_iff _).mp h))
    refine ⟨hj, ?_⟩
    simp only [decodeCompressedImage, hl]
    rfl

theorem decompressJPEG_calls_turbo (C : Collaborators) (data : Bytes) (e : CppString)
    (h : Header) : ∀ c ∈ (decompressJPEG C data e h).calls, c.isTurbo = true := by
  obtain ⟨rest, hfc, hrest⟩ := decompressJPEG_calls C data e h
  intro c hc
  rw [hfc] at hc
  rcases List.mem_cons.mp hc with rfl | hc
  · rfl
  · exact hrest c hc

theorem imdecode_mem_generalDecode (C : Collaborators) (image : CompressedImage) (e d : CppString)
    (flag : Int) : Call.imdecode image.data flag ∈ (generalDecode C image e d flag).calls := by
  rw [generalDecode_calls]; simp


/-! ### The encoder -/

theorem encodeImage_registered (C : Collaborators) (message : Image) (flag : Int)
    (params : List Int) (bd nc : Int) (hbd : C.bitDepth message.encoding = .ok bd)
    (hnc : C.numChannels message.encoding = .ok nc) :
    encodeImage C message flag params =
      if flag = JPEG ∨ flag = PNG then
        if bd = 8 ∨ bd = 16 then
          bridgeAndCompress C message params
            ⟨message.header,
              message.encoding ++ methodWords flag ++
                intermediateLayout (C.isColor message.encoding) flag bd, []⟩
            (intermediateLayout (C.isColor message.encoding) flag bd) (methodExt flag)
        else if flag = JPEG then ⟨[], .error (.jpeg_requires_8_16 message.encoding)⟩
        else ⟨[], .error (.png_requires_8_16 message.encoding)⟩
      else ⟨[], .error .unknown_compression_type⟩ := by
  unfold encodeImage
  rw [Run.bind_ok _ _ bd (by simp [Run.lookup, hbd])]
  rw [Run.bind_ok _ _ nc (by simp [Run.lookup, hnc])]
  have hl1 : (Run.lookup (C.bitDepth message.encoding)).calls = [] := by simp [Run.lookup, hbd]
  have hl2 : (Run.lookup (C.numChannels message.encoding)).calls = [] := by simp [Run.lookup, hnc]
  simp only [hl1, hl2, List.nil_append]
  by_cases hJ : flag = JPEG
  · subst hJ
    simp only [true_or, if_true]
    by_cases h8 : bd = 8 ∨ bd = 16
    · simp only [h8, if_true]
      by_cases hcol : C.isColor message.encoding = true
      · simp [hcol, bridgeAndCompress, intermediateLayout, methodWords, methodExt,
          CompressedImage.new]
        rfl
      · simp [hcol, bridgeAndCompress, intermediateLayout, methodWords, methodExt,
          CompressedImage.new]
        rfl
    · simp only [h8, if_false]
      rfl
  · by_cases hP : flag = PNG
    · subst hP
      have : ¬ (PNG = JPEG) := by decide
      simp only [this, false_or, if_true, if_false]
      by_cases h8 : bd = 8 ∨ bd = 16
      · simp only [h8, if_true]
        by_cases hcol : C.isColor message.encoding = true
        · rcases h8 with rfl | rfl <;>
          · simp [hcol, bridgeAndCompress, intermediateLayout, methodWords, methodExt,
              CompressedImage.new, this]
            rfl
        · simp [hcol, bridgeAndCompress, intermediateLayout, methodWords, methodExt,
            CompressedImage.new, this]
          rfl
      · simp only [h8, if_false]
        rfl
    · simp only [hJ, hP, or_self, if_false]
      rfl

theorem Run.bind_result_error {α β : Type} (x : Run α) (f : α → Run β) (e : Exn)
    (h : (x >>= f).result = .error e) :
    x.result = .error e ∨ ∃ a, x.result = .ok a ∧ (f a).result = .error e := by
  change (Run.bind x f).result = .error e at h
  unfold Run.bind at h
  cases hx : x.result with
  | error e' => rw [hx] at h; exact Or.inl (by simpa using h)
  | ok a => rw [hx] at h; exact Or.inr ⟨a, rfl, h⟩

theorem lookup_ok {α : Type} (r : Except String α) (a : α) (h : (Run.lookup r).result = .ok a) :
    r = .ok a := by
  cases r with
  | error w => cases h
  | ok b => simp only [Run.lookup, Except.ok.injEq] at h; rw [h]

theorem callExcept_ok {α : Type} (c : Call) (r : Except String α) (a : α)
    (h : (Run.callExcept c r).result = .ok a) : r = .ok a := by
  cases r with
  | error w => cases h
  | ok b => simp only [Run.callExcept, Except.ok.injEq] at h; rw [h]

theorem callExcept_error {α : Type} (c : Call) (r : Except String α) (e : Exn)
    (h : (Run.callExcept c r).result = .error e) : ∃ w, r = .error w ∧ e = .library w := by
  cases r with
  | error w => simp only [Run.callExcept, Except.error.injEq] at h; exact ⟨w, rfl, h.symm⟩
  | ok b => cases h

theorem encodeImage_ok_registered (C : Collaborators) (message : Image) (flag : Int)
    (params : List Int) (out : CompressedImage)
    (h : (encodeImage C message flag params).result = .ok out) :
    ∃ bd nc, C.bitDepth message.encoding = .ok bd ∧ C.numChannels message.encoding = .ok nc := by
  unfold encodeImage at h
  obtain ⟨bd, hbd, h⟩ := Run.bind_result_ok _ _ _ h
  obtain ⟨nc, hnc, -⟩ := Run.bind_result_ok _ _ _ h
  exact ⟨bd, nc, lookup_ok _ _ hbd, lookup_ok _ _ hnc⟩

theorem bridgeAndCompress_ok (C : Collaborators) (message : Image) (params : List Int)
    (compressed out : CompressedImage) (t ext : CppString)
    (h : (bridgeAndCompress C message params compressed t ext).result = .ok out) :
    ∃ cv data, C.toCvShare message t = .ok cv ∧
      C.imencode ext cv.image params = .ok (some data) ∧
      out = { compressed with data := data } := by
  unfold bridgeAndCompress at h
  obtain ⟨cv, hcv, h⟩ := Run.bind_result_ok _ _ _ h
  obtain ⟨r, hr, h⟩ := Run.bind_result_ok _ _ _ h
  cases r with
  | none => cases h
  | some data =>
    simp only [Run.pure_result2, Except.ok.injEq] at h
    exact ⟨cv, data, callExcept_ok _ _ _ hcv, callExcept_ok _ _ _ hr, h.symm⟩

theorem bridgeAndCompress_of_ok (C : Collaborators) (message : Image) (params : List Int)
    (compressed : CompressedImage) (t ext : CppString) (cv : CvImage) (data : Bytes)
    (hcv : C.toCvShare message t = .ok cv)
    (hen : C.imencode ext cv.image params = .ok (some data)) :
    (bridgeAndCompress C message params compressed t ext).result
      = .ok { compressed with data := data } := by
  unfold bridgeAndCompress
  rw [Run.bind_ok _ _ cv (by simp [Run.callExcept, hcv])]
  simp only []
  rw [Run.bind_ok _ _ (some data) (by simp [Run.callExcept, hen])]
  rfl

theorem bridgeAndCompress_error (C : Collaborators) (message : Image) (params : List Int)
    (compressed : CompressedImage) (t ext : CppString) (ex : Exn)
    (h : (bridgeAndCompress C message params compressed t ext).result = .error ex) :
    (∃ w, C.toCvShare message t = .error w) ∨
    ∃ cv, C.toCvShare message t = .ok cv ∧
      ((∃ w, C.imencode ext cv.image params = .error w) ∨
        C.imencode ext cv.image params = .ok none) := by
  unfold bridgeAndCompress at h
  rcases Run.bind_result_error _ _ _ h with h | ⟨cv, hcv, h⟩
  · obtain ⟨w, hw, -⟩ := callExcept_error _ _ _ h
    exact Or.inl ⟨w, hw⟩
  · right
    refine ⟨cv, callExcept_ok _ _ _ hcv, ?_⟩
    rcases Run.bind_result_error _ _ _ h with h | ⟨r, hr, h⟩
    · obtain ⟨w, hw, -⟩ := callExcept_error _ _ _ h
      exact Or.inl ⟨w, hw⟩
    · cases r with
      | none => exact Or.inr (callExcept_ok _ _ _ hr)
      | some data => cases h


/-! ### Exceptions of the decoder -/

theorem findChar_append_of_not_mem (c : Char) (s t : CppString) (h : c ∉ s) :
    findChar c (s ++ c :: t) = some s.length := by
  induction s with
  | nil => simp [findChar]
  | cons x xs ih =>
    have hx : x ≠ c := fun hxc => h (by simp [hxc])
    have hxs : c ∉ xs := fun hm => h (List.mem_cons_of_mem _ hm)
    simp [findChar, hx, ih hxs]

theorem resize_error (n : Int) (ex : Exn) (h : (resize n).result = .error ex) :
    ex = .length_error := by
  unfold resize at h
  split at h
  · cases h
  · simp only [Run.throw_result, Except.error.injEq] at h; exact h.symm

theorem allocate_error (ret : Image) (w h c : Int) (e : CppString) (ex : Exn)
    (hr : (allocate ret w h c e).result = .error ex) : ex = .length_error := by
  rw [allocate_eq] at hr
  rcases Run.bind_result_error _ _ _ hr with hr | ⟨buf, -, hr⟩
  · exact resize_error _ _ hr
  · cases hr

/-- The only exception that leaves the fast path is the `std::length_error` of
the resize of its buffer. -/
theorem decompressJPEG_error (C : Collaborators) (data : Bytes) (e : CppString) (header : Header)
    (ex : Exn) (h : (decompressJPEG C data e header).result = .error ex) :
    ex = .length_error := by
  unfold decompressJPEG at h
  rcases Run.bind_result_error _ _ _ h with h | ⟨_, -, h⟩
  · cases h
  rcases Run.bind_result_error _ _ _ h with h | ⟨oh, -, h⟩
  · cases h
  cases oh with
  | none => cases h
  | some hdr =>
    simp only [] at h
    cases hsel : pixelLayout e hdr.jpegColorspace with
    | none =>
      rw [hsel] at h
      simp only [] at h
      rcases Run.bind_result_error _ _ _ h with h | ⟨_, -, h⟩ <;> cases h
    | some t =>
      obtain ⟨c, pf, en⟩ := t
      rw [hsel] at h
      simp only [] at h
      rcases Run.bind_result_error _ _ _ h with h | ⟨ret, -, h⟩
      · exact allocate_error _ _ _ _ _ _ h
      rcases Run.bind_result_error _ _ _ h with h | ⟨opx, -, h⟩
      · cases h
      cases opx with
      | none =>
        simp only [] at h
        rcases Run.bind_result_error _ _ _ h with h | ⟨_, -, h⟩ <;> cases h
      | some px =>
        simp only [] at h
        rcases Run.bind_result_error _ _ _ h with h | ⟨_, -, h⟩ <;> cases h

theorem cvtColorIf_error (C : Collaborators) (b : Bool) (code : ColorConversionCode) (m : Mat)
    (ex : Exn) (h : (cvtColorIf C b code m).result = .error ex) : ∃ w, ex = .library w := by
  unfold cvtColorIf at h
  split at h
  · obtain ⟨w, -, hw⟩ := callExcept_error _ _ _ h
    exact ⟨w, hw⟩
  · cases h

theorem declaredEncoding_error (C : Collaborators) (cv0 : CvImage) (e d : CppString) (ex : Exn)
    (h : (declaredEncoding C cv0 e d).result = .error ex) : ∃ w, ex = .library w := by
  unfold declaredEncoding at h
  split at h
  · simp only [] at h
    split at h
    all_goals
      rcases Run.bind_result_error _ _ _ h with h | ⟨m1, -, h⟩
      · exact cvtColorIf_error _ _ _ _ _ h
      rcases Run.bind_result_error _ _ _ h with h | ⟨m2, -, h⟩
      · exact cvtColorIf_error _ _ _ _ _ h
      rcases Run.bind_result_error _ _ _ h with h | ⟨m3, -, h⟩
      · exact cvtColorIf_error _ _ _ _ _ h
      cases h
  · cases h

/-- The exceptions of the general decode for a tag with a semicolon. -/
theorem generalDecode_error_declared (C : Collaborators) (image : CompressedImage)
    (e d : CppString) (flag : Int) (i : Nat) (ex : Exn)
    (hf : findChar ';' image.format = some i)
    (h : (generalDecode C image e d flag).result = .error ex) :
    (∃ w, ex = .library w) ∨ ∃ r c, ex = .zero_dimension r c := by
  unfold generalDecode at h
  rcases Run.bind_result_error _ _ _ h with h | ⟨m, -, h⟩
  · obtain ⟨w, -, hw⟩ := callExcept_error _ _ _ h
    exact Or.inl ⟨w, hw⟩
  simp only [hf] at h
  rcases Run.bind_result_error _ _ _ h with h | ⟨cv, -, h⟩
  · exact Or.inl (declaredEncoding_error _ _ _ _ _ h)
  unfold extractImage at h
  split at h
  · cases h
  · simp only [Run.throw_result, Except.error.injEq] at h
    exact Or.inr ⟨_, _, h.symm⟩


/-! ### Outcome of the fast path -/

/-- The outcome of the fast path, case by case. -/
theorem decompressJPEG_result (C : Collaborators) (data : Bytes) (e : CppString)
    (header : Header) :
    (decompressJPEG C data e header).result =
      match C.tjDecompressHeader3 data with
      | none => .ok none
      | some hdr =>
        match pixelLayout e hdr.jpegColorspace with
        | none => .ok none
        | some (c, pf, en) =>
          match (allocate { Image.new with header := header, width := toUInt32 hdr.width,
                                           height := toUInt32 hdr.height, encoding := e }
                  hdr.width hdr.height c en).result with
          | .error ex => .error ex
          | .ok ret =>
            match C.tjDecompress2 data hdr.width hdr.height pf with
            | none => .ok none
            | some px => .ok (some { ret with data := writeInto ret.data px }) := by
  unfold decompressJPEG
  rw [Run.bind_ok _ _ () rfl]
  rw [Run.bind_ok _ _ (C.tjDecompressHeader3 data) rfl]
  cases C.tjDecompressHeader3 data with
  | none => rfl
  | some hdr =>
    simp only []
    cases pixelLayout e hdr.jpegColorspace with
    | none => rfl
    | some t =>
      obtain ⟨c, pf, en⟩ := t
      simp only []
      generalize hal : (allocate _ hdr.width hdr.height c en) = al
      cases har : al.result with
      | error ex => rw [Run.bind_error _ _ ex har]
      | ok ret =>
        rw [Run.bind_ok _ _ ret har]
        simp only []
        rw [Run.bind_ok _ _ (C.tjDecompress2 data hdr.width hdr.height pf) rfl]
        cases C.tjDecompress2 data hdr.width hdr.height pf <;> rfl

/-- The fast path returns the null pointer in three cases: the header parse
fails, the declared encoding is not supported, or the decompress primitive
fails on the allocated buffer. -/
theorem decompressJPEG_inapplicable_iff (C : Collaborators) (data : Bytes) (e : CppString)
    (header : Header) :
    (decompressJPEG C data e header).result = .ok none ↔
      C.tjDecompressHeader3 data = none ∨
      ∃ hdr, C.tjDecompressHeader3 data = some hdr ∧
        (pixelLayout e hdr.jpegColorspace = none ∨
         ∃ c pf en ret, pixelLayout e hdr.jpegColorspace = some (c, pf, en) ∧
           (allocate { Image.new with header := header, width := toUInt32 hdr.width,
                                      height := toUInt32 hdr.height, encoding := e }
              hdr.width hdr.height c en).result = .ok ret ∧
           C.tjDecompress2 data hdr.width hdr.height pf = none) := by
  rw [decompressJPEG_result]
  cases hh : C.tjDecompressHeader3 data with
  | none => simp
  | some hdr =>
    simp only [reduceCtorEq, Option.some.injEq, exists_eq_left', false_or]
    cases hp : pixelLayout e hdr.jpegColorspace with
    | none => simp
    | some t =>
      obtain ⟨c, pf, en⟩ := t
      simp only [reduceCtorEq, Option.some.injEq, Prod.mk.injEq, false_or]
      generalize hal : (allocate _ hdr.width hdr.height c en) = al
      cases har : al.result with
      | error ex =>
        simp only [reduceCtorEq, false_iff, not_exists, not_and]
        intro c' pf' en' ret h
        obtain ⟨rfl, rfl, rfl⟩ := h
        rw [hal, har]
        intro h2; cases h2
      | ok ret =>
        simp only []
        cases hd : C.tjDecompress2 data hdr.width hdr.height pf with
        | none =>
          simp only [true_iff]
          exact ⟨c, pf, en, ret, ⟨rfl, rfl, rfl⟩, by rw [hal, har], hd⟩
        | some px =>
          simp only [Except.ok.injEq, reduceCtorEq, false_iff, not_exists, not_and]
          intro c' pf' en' ret' h
          obtain ⟨rfl, rfl, rfl⟩ := h
          intro _
          rw [hd]
          simp

/-! ### The scan of the codec parameters -/

theorem pairedQuality_short (l : List Int) (q : Int) (h : l.length ≤ 1) :
    pairedQuality l q = q := by
  match l, h with
  | [], _ => rfl
  | [_], _ => rfl

theorem scanLoop_inside (params : List Int) (hlen : params.length < 18446744073709551616) :
    ∀ (fuel i : Nat) (q : Int), i ≤ params.length → params.length < fuel + i →
      (scanLoop params (params.length - 1) fuel i q).result
        = .quality (pairedQuality (params.drop i) q) ∧
      ∀ j ∈ (scanLoop params (params.length - 1) fuel i q).reads, j < params.length := by
  intro fuel
  induction fuel with
  | zero => intro i q hi hf; omega
  | succ fuel ih =>
    intro i q hi hf
    unfold scanLoop
    by_cases hb : i < params.length - 1
    · have hi0 : i < params.length := by omega
      have hi1 : i + 1 < params.length := by omega
      have hmod : (i + 2) % 18446744073709551616 = i + 2 := Nat.mod_eq_of_lt (by omega)
      have hd : params.drop i = params[i] :: params[i + 1] :: params.drop (i + 2) := by
        rw [List.drop_eq_getElem_cons hi0, List.drop_eq_getElem_cons hi1]
      have hg0 : params.get? i = some params[i] := by
        rw [List.get?_eq_getElem?]; exact List.getElem?_eq_getElem hi0
      have hg1 : params.get? (i + 1) = some params[i + 1] := by
        rw [List.get?_eq_getElem?]; exact List.getElem?_eq_getElem hi1
      rw [if_pos hb, hg0]
      simp only [hmod]
      by_cases hk : params[i] = IMWRITE_JPEG_QUALITY
      · rw [if_pos hk, hg1]
        obtain ⟨r1, r2⟩ := ih (i + 2) params[i + 1] (by omega) (by omega)
        refine ⟨?_, ?_⟩
        · simp only [r1, hd, pairedQuality, hk, if_true]
        · intro j hj
          simp only [List.mem_cons] at hj
          rcases hj with rfl | rfl | hj
          · exact hi0
          · exact hi1
          · exact r2 j hj
      · rw [if_neg hk]
        obtain ⟨r1, r2⟩ := ih (i + 2) q (by omega) (by omega)
        refine ⟨?_, ?_⟩
        · simp only [r1, hd, pairedQuality, hk, if_false]
        · intro j hj
          simp only [List.mem_cons] at hj
          rcases hj with rfl | hj
          · exact hi0
          · exact r2 j hj
    · rw [if_neg hb]
      refine ⟨?_, by simp⟩
      rw [pairedQuality_short _ _ (by rw [List.length_drop]; omega)]

/-- For a list that is not empty the scan of `compressJPEG` stays inside the
list and ends with the quality that the pairs ask for, 95 without a quality
key.  (The empty list is the case in which it does not.) -/
theorem jpegQualityScan_nonempty (params : List Int) (hne : params ≠ [])
    (hlen : params.length < 18446744073709551616) :
    (jpegQualityScan params).result = .quality (pairedQuality params 95) ∧
    ∀ j ∈ (jpegQualityScan params).reads, j < params.length := by
  have hpos : 0 < params.length := List.length_pos.mpr hne
  have hbound : toSizeT ((params.length : Int) - 1) = params.length - 1 := by
    unfold toSizeT
    omega
  unfold jpegQualityScan
  rw [hbound]
  have := scanLoop_inside params hlen (params.length + 1) 0 95 (by omega) (by omega)
  simpa using this


/-- The scan always ends within its iteration budget. -/
theorem jpegQualityScan_finishes (params : List Int)
    (hlen : params.length < 18446744073709551616) :
    (jpegQualityScan params).result ≠ .running := by
  by_cases hne : params = []
  · subst hne; decide
  · rw [(jpegQualityScan_nonempty params hne hlen).1]
    intro h; cases h

/-! ### The general decode of a declared encoding -/

theorem extractImage_result (cv : CvImage) :
    (extractImage cv).result =
      if 0 < cv.image.rows ∧ 0 < cv.image.cols then .ok cv.toImageMsg
      else .error (.zero_dimension cv.image.rows cv.image.cols) := by
  unfold extractImage
  split <;> rfl

/-- The run of the general decode for a tag with a semicolon and a payload
that `cv::imdecode` decodes to `m`: the selected conversion, if any, is
requested on `m`, and the message is extracted from its output. -/
theorem generalDecode_declared (C : Collaborators) (image : CompressedImage) (e d : CppString)
    (flag : Int) (m : Mat) (i : Nat) (hf : findChar ';' image.format = some i)
    (hdec : C.imdecode image.data flag = .ok m) :
    match selectedConversion (C.isColor e) (findStr "compressed bgr".toList d).isSome e with
    | none =>
      (generalDecode C image e d flag).calls = [Call.imdecode image.data flag] ∧
      (generalDecode C image e d flag).result = (extractImage ⟨image.header, e, m⟩).result
    | some code =>
      (generalDecode C image e d flag).calls
        = [Call.imdecode image.data flag, Call.cvtColor m code] ∧
      (generalDecode C image e d flag).result =
        match C.cvtColor m code with
        | .error w => .error (.library w)
        | .ok m' => (extractImage ⟨image.header, e, m'⟩).result := by
  unfold generalDecode
  rw [Run.bind_ok _ _ m (by simp [Run.callExcept, hdec])]
  simp only [hf, declaredEncoding_eq, Run.callExcept_calls]
  cases selectedConversion (C.isColor e) (findStr "compressed bgr".toList d).isSome e with
  | none =>
    simp only [Run.pure_bind]
    refine ⟨?_, ?_⟩ <;> first | rfl | simp [extractImage_calls]
  | some code =>
    simp only []
    cases hcv : C.cvtColor m code with
    | error w =>
      have hx : (Run.callExcept (Call.cvtColor m code) (Except.error w : Except String Mat) >>=
          fun m' => Run.pure (⟨image.header, e, m'⟩ : CvImage)) =
          ⟨[Call.cvtColor m code], .error (.library w)⟩ := rfl
      rw [hx, Run.bind_error _ _ (.library w) rfl]
      exact ⟨rfl, rfl⟩
    | ok m' =>
      have hx : (Run.callExcept (Call.cvtColor m code) (Except.ok m' : Except String Mat) >>=
          fun m' => Run.pure (⟨image.header, e, m'⟩ : CvImage)) =
          ⟨[Call.cvtColor m code], .ok ⟨image.header, e, m'⟩⟩ := rfl
      rw [hx, Run.bind_ok _ _ ⟨image.header, e, m'⟩ rfl]
      exact ⟨by simp [extractImage_calls], rfl⟩

/-! ### The claims -/

/-- C6: a null compressed-image reference makes `decodeCompressedImage` throw
the null-pointer error, for every decode flag, with no library entry point
invoked (the run records no call at all, and no format is looked at). -/
theorem decode_null_pointer (C : Collaborators) (decode_flag : Int) :
    decodeCompressedImage C none decode_flag = ⟨[], .error .null_pointer⟩ := rfl

/-- C1, at the failing input: a payload that starts like a JPEG and whose
header announces 50000 by 50000 pixels, tagged "mono8; jpeg compressed ".  The
fast path is attempted; the product `height*width` wraps to a negative `int`,
the resize of the buffer throws `std::length_error`, and the exception leaves
`decompressJPEG` and `decodeCompressedImage`: the fast path neither produced
an image nor returned the null pointer, `cv::imdecode` is never invoked, and
the outcome of the call is not the outcome of the general decode on the same
payload and tag, which is an image. -/
theorem decode_fast_path_throws :
    startsLikeJPEG sample.colorJpeg ∧
    mulInt 50000 50000 = -1794967296 ∧
    (decompressJPEG sample.oversized sample.colorJpeg "mono8".toList sample.hdr).result
      = .error .length_error ∧
    decodeCompressedImage sample.oversized
        (some ⟨sample.hdr, "mono8; jpeg compressed ".toList, sample.colorJpeg⟩) 0
      = ⟨[.tjInitDecompress, .tjDecompressHeader3 sample.colorJpeg], .error .length_error⟩ ∧
    (generalDecode sample.oversized
        ⟨sample.hdr, "mono8; jpeg compressed ".toList, sample.colorJpeg⟩
        "mono8".toList "; jpeg compressed ".toList 0).result
      = .ok ⟨sample.hdr, 1, 2, "mono8".toList, 0, 6, [10, 20, 30, 40, 50, 60]⟩ ∧
    (decodeCompressedImage sample.oversized
        (some ⟨sample.hdr, "mono8; jpeg compressed ".toList, sample.colorJpeg⟩) 0).result ≠
      (generalDecode sample.oversized
        ⟨sample.hdr, "mono8; jpeg compressed ".toList, sample.colorJpeg⟩
        "mono8".toList "; jpeg compressed ".toList 0).result :=
  ⟨by decide, by decide, rfl, rfl, rfl, by
    intro h
    have h1 : (decodeCompressedImage sample.oversized
        (some ⟨sample.hdr, "mono8; jpeg compressed ".toList, sample.colorJpeg⟩) 0).result
        = .error .length_error := rfl
    have h2 : (generalDecode sample.oversized
        ⟨sample.hdr, "mono8; jpeg compressed ".toList, sample.colorJpeg⟩
        "mono8".toList "; jpeg compressed ".toList 0).result
        = .ok ⟨sample.hdr, 1, 2, "mono8".toList, 0, 6, [10, 20, 30, 40, 50, 60]⟩ := rfl
    rw [h1, h2] at h
    cases h⟩

/-- The dispatch rule of `decodeCompressedImage` on a non-null compressed
image, in the cases in which the fast path does not throw.  With `fast` the run
of `decompressJPEG` on the payload and the declared encoding, and `general` the
run of the general decode on the same payload with the parts of the full
format tag: the fast path is attempted (its first entry point
`tjInitDecompress` is invoked) if and only if the payload is longer than 4
bytes and starts with 0xFF 0xD8; when it is attempted and produces an image the
call returns that image at once; the call ends with an image without
`cv::imdecode` ever being invoked exactly in that case; when the path is not
attempted the call is the general decode; when it is attempted and returns the
null pointer (inapplicable) the call's outcome is the outcome of the general
decode, run after the fast path; and the fast path returns the null pointer
exactly on a header parse failure, an unsupported declared encoding or a
failure of the decompress primitive on the resized buffer. -/
theorem decode_dispatch (C : Collaborators) (image : CompressedImage) (decode_flag : Int) :
    (Call.tjInitDecompress ∈ (decodeCompressedImage C (some image) decode_flag).calls ↔
      startsLikeJPEG image.data) ∧
    (∀ decoded, startsLikeJPEG image.data →
      (decompressJPEG C image.data (splitFormat image.format).1 image.header).result
        = .ok (some decoded) →
      decodeCompressedImage C (some image) decode_flag =
        ⟨(decompressJPEG C image.data (splitFormat image.format).1 image.header).calls,
          .ok decoded⟩) ∧
    (((∃ img, (decodeCompressedImage C (some image) decode_flag).result = .ok img) ∧
        ∀ c ∈ (decodeCompressedImage C (some image) decode_flag).calls,
          c ≠ Call.imdecode image.data decode_flag) ↔
      (startsLikeJPEG image.data ∧
        ∃ decoded,
          (decompressJPEG C image.data (splitFormat image.format).1 image.header).result
            = .ok (some decoded))) ∧
    (¬ startsLikeJPEG image.data →
      decodeCompressedImage C (some image) decode_flag =
        generalDecode C image (splitFormat image.format).1 (splitFormat image.format).2
          decode_flag) ∧
    (startsLikeJPEG image.data →
      (decompressJPEG C image.data (splitFormat image.format).1 image.header).result
        = .ok none →
      decodeCompressedImage C (some image) decode_flag =
        ⟨(decompressJPEG C image.data (splitFormat image.format).1 image.header).calls ++
          (generalDecode C image (splitFormat image.format).1 (splitFormat image.format).2
            decode_flag).calls,
         (generalDecode C image (splitFormat image.format).1 (splitFormat image.format).2
            decode_flag).result⟩) ∧
    ((decompressJPEG C image.data (splitFormat image.format).1 image.header).result
        = .ok none ↔
      C.tjDecompressHeader3 image.data = none ∨
      ∃ hdr, C.tjDecompressHeader3 image.data = some hdr ∧
        (pixelLayout (splitFormat image.format).1 hdr.jpegColorspace = none ∨
         ∃ c pf en ret,
           pixelLayout (splitFormat image.format).1 hdr.jpegColorspace = some (c, pf, en) ∧
           (allocate { Image.new with header := image.header, width := toUInt32 hdr.width,
                                      height := toUInt32 hdr.height,
                                      encoding := (splitFormat image.format).1 }
              hdr.width hdr.height c en).result = .ok ret ∧
           C.tjDecompress2 image.data hdr.width hdr.height pf = none)) := by
  have hturbo := decompressJPEG_calls_turbo C image.data (splitFormat image.format).1 image.header
  obtain ⟨rest, hfc, -⟩ :=
    decompressJPEG_calls C image.data (splitFormat image.format).1 image.header
  have hinit : Call.tjInitDecompress ∈
      (decompressJPEG C image.data (splitFormat image.format).1 image.header).calls := by
    rw [hfc]; simp
  have hgen := generalDecode_calls_opencv C image (splitFormat image.format).1
    (splitFormat image.format).2 decode_flag
  have himd := imdecode_mem_generalDecode C image (splitFormat image.format).1
    (splitFormat image.format).2 decode_flag
  refine ⟨?_, ?_, ?_, ?_, ?_, decompressJPEG_inapplicable_iff _ _ _ _⟩
  · rcases decode_cases C image decode_flag with ⟨hj, hrun⟩ | ⟨hj, ex, -, hrun⟩ |
        ⟨hj, -, hrun⟩ | ⟨hj, d, -, hrun⟩
    · rw [hrun]
      refine ⟨fun hmem => ?_, fun h => absurd h hj⟩
      have := hgen _ hmem
      simp [Call.isTurbo] at this
    · rw [hrun]; exact ⟨fun _ => hj, fun _ => hinit⟩
    · rw [hrun]; exact ⟨fun _ => hj, fun _ => List.mem_append_left _ hinit⟩
    · rw [hrun]; exact ⟨fun _ => hj, fun _ => hinit⟩
  · intro decoded hj hfast
    rcases decode_cases C image decode_flag with ⟨hn, -⟩ | ⟨-, ex, h2, -⟩ | ⟨-, h2, -⟩ |
        ⟨-, d, h2, hrun⟩
    · exact absurd hj hn
    · rw [hfast] at h2; cases h2
    · rw [hfast] at h2; cases h2
    · rw [hfast] at h2
      simp only [Except.ok.injEq, Option.some.injEq] at h2
      rw [hrun, h2]
  · rcases decode_cases C image decode_flag with ⟨hj, hrun⟩ | ⟨hj, ex, hfast, hrun⟩ |
        ⟨hj, hfast, hrun⟩ | ⟨hj, d, hfast, hrun⟩
    · rw [hrun]
      constructor
      · rintro ⟨-, h⟩; exact absurd rfl (h _ himd)
      · rintro ⟨h, -⟩; exact absurd h hj
    · rw [hrun, hfast]
      constructor
      · rintro ⟨⟨img, h⟩, -⟩; cases h
      · rintro ⟨-, d, h⟩; cases h
    · rw [hrun, hfast]
      constructor
      · rintro ⟨-, h⟩; exact absurd rfl (h _ (List.mem_append_right _ himd))
      · rintro ⟨-, d, h⟩; cases h
    · rw [hrun, hfast]
      constructor
      · intro _; exact ⟨hj, d, rfl⟩
      · intro _
        refine ⟨⟨d, rfl⟩, fun c hc hcc => ?_⟩
        have := hturbo c hc
        rw [hcc] at this
        simp [Call.isTurbo] at this
  · intro hj
    rcases decode_cases C image decode_flag with ⟨-, hrun⟩ | ⟨h, -⟩ | ⟨h, -⟩ | ⟨h, -⟩
    · exact hrun
    · exact absurd h hj
    · exact absurd h hj
    · exact absurd h hj
  · intro hj hfast
    rcases decode_cases C image decode_flag with ⟨hn, -⟩ | ⟨-, ex, h2, -⟩ | ⟨-, -, hrun⟩ |
        ⟨-, d, h2, -⟩
    · exact absurd hj hn
    · rw [hfast] at h2; cases h2
    · exact hrun
    · rw [hfast] at h2; cases h2

/-- C7: colorspace correction in the general decode of a tag that contains a
semicolon, the codec having decoded the payload to a matrix `m`.  The stored
order is BGR exactly when "compressed bgr" occurs in the part of the tag from
the first semicolon onward.  At most one conversion is requested from
`cv::cvtColor`.  When the declared encoding is a color format and the table of
the stored order holds a conversion for it, exactly that conversion is
requested, on the decoded matrix `m`, and the outcome of the decode is built
from the matrix `cv::cvtColor` returns: the message of that matrix with the
declared encoding (so every image returned carries the converted bytes), the
zero-dimension error if that matrix has a zero dimension, or the error of
`cv::cvtColor` if it throws.  When the declared encoding is not a color
format, or the table holds no conversion for it (bgr8/bgr16 stored BGR,
rgb8/rgb16 stored RGB), no conversion is requested and the outcome is built
from `m` itself: every image returned carries the bytes of the codec
unchanged. -/
theorem general_decode_color_correction (C : Collaborators) (image : CompressedImage)
    (decode_flag : Int) (m : Mat) (hsemi : ';' ∈ image.format)
    (hdec : C.imdecode image.data decode_flag = .ok m) :
    ((generalDecode C image (splitFormat image.format).1 (splitFormat image.format).2
        decode_flag).calls.filterMap Call.conversion).length ≤ 1 ∧
    (∀ code, C.isColor (declaredPart image.format) = true →
      (("compressed bgr".toList <:+: descriptorPart image.format ∧
          conversionFromBGR (declaredPart image.format) = some code) ∨
        (¬ "compressed bgr".toList <:+: descriptorPart image.format ∧
          conversionFromRGB (declaredPart image.format) = some code)) →
      (generalDecode C image (splitFormat image.format).1 (splitFormat image.format).2
        decode_flag).calls.filterMap Call.conversion = [(m, code)] ∧
      (∀ m', C.cvtColor m code = .ok m' →
        (generalDecode C image (splitFormat image.format).1 (splitFormat image.format).2
          decode_flag).result =
          (if 0 < m'.rows ∧ 0 < m'.cols then
            .ok (CvImage.toImageMsg ⟨image.header, declaredPart image.format, m'⟩)
           else .error (.zero_dimension m'.rows m'.cols)) ∧
        ∀ img, (generalDecode C image (splitFormat image.format).1
            (splitFormat image.format).2 decode_flag).result = .ok img →
          img.data = m'.data ∧ img.encoding = declaredPart image.format) ∧
      (∀ w, C.cvtColor m code = .error w →
        (generalDecode C image (splitFormat image.format).1 (splitFormat image.format).2
          decode_flag).result = .error (.library w))) ∧
    ((C.isColor (declaredPart image.format) = false ∨
        (C.isColor (declaredPart image.format) = true ∧
          "compressed bgr".toList <:+: descriptorPart image.format ∧
          conversionFromBGR (declaredPart image.format) = none) ∨
        (C.isColor (declaredPart image.format) = true ∧
          ¬ "compressed bgr".toList <:+: descriptorPart image.format ∧
          conversionFromRGB (declaredPart image.format) = none)) →
      (generalDecode C image (splitFormat image.format).1 (splitFormat image.format).2
        decode_flag).calls.filterMap Call.conversion = [] ∧
      (generalDecode C image (splitFormat image.format).1 (splitFormat image.format).2
        decode_flag).result =
        (if 0 < m.rows ∧ 0 < m.cols then
          .ok (CvImage.toImageMsg ⟨image.header, declaredPart image.format, m⟩)
         else .error (.zero_dimension m.rows m.cols)) ∧
      ∀ img, (generalDecode C image (splitFormat image.format).1
          (splitFormat image.format).2 decode_flag).result = .ok img →
        img.data = m.data ∧ img.encoding = declaredPart image.format) := by
  obtain ⟨i, hf⟩ := findChar_isSome_of_mem _ hsemi
  have hsplit := splitFormat_of_mem _ hsemi
  have h1 : (splitFormat image.format).1 = declaredPart image.format := by rw [hsplit]; rfl
  have h2 : (splitFormat image.format).2 = descriptorPart image.format := by rw [hsplit]; rfl
  rw [h1, h2]
  have hmain := generalDecode_declared C image (declaredPart image.format)
    (descriptorPart image.format) decode_flag m i hf hdec
  have hbgr := findStr_isSome_iff "compressed bgr".toList (descriptorPart image.format)
  have himg : ∀ (m0 : Mat) (img : Image),
      (if 0 < m0.rows ∧ 0 < m0.cols then
          (Except.ok (CvImage.toImageMsg ⟨image.header, declaredPart image.format, m0⟩) :
            Except Exn Image)
        else .error (.zero_dimension m0.rows m0.cols)) = .ok img →
      img.data = m0.data ∧ img.encoding = declaredPart image.format := by
    intro m0 img h
    split at h
    · simp only [Except.ok.injEq] at h
      rw [← h]
      exact ⟨rfl, rfl⟩
    · cases h
  have hnone : selectedConversion (C.isColor (declaredPart image.format))
        (findStr "compressed bgr".toList (descriptorPart image.format)).isSome
        (declaredPart image.format) = none →
      (generalDecode C image (declaredPart image.format) (descriptorPart image.format)
        decode_flag).calls.filterMap Call.conversion = [] ∧
      (generalDecode C image (declaredPart image.format) (descriptorPart image.format)
        decode_flag).result =
        (if 0 < m.rows ∧ 0 < m.cols then
          .ok (CvImage.toImageMsg ⟨image.header, declaredPart image.format, m⟩)
         else .error (.zero_dimension m.rows m.cols)) := by
    intro hsel
    rw [hsel] at hmain
    obtain ⟨hcalls, hres⟩ := hmain
    rw [hcalls, hres, extractImage_result]
    exact ⟨rfl, rfl⟩
  have hsome : ∀ code, selectedConversion (C.isColor (declaredPart image.format))
        (findStr "compressed bgr".toList (descriptorPart image.format)).isSome
        (declaredPart image.format) = some code →
      (generalDecode C image (declaredPart image.format) (descriptorPart image.format)
        decode_flag).calls.filterMap Call.conversion = [(m, code)] ∧
      (∀ m', C.cvtColor m code = .ok m' →
        (generalDecode C image (declaredPart image.format) (descriptorPart image.format)
          decode_flag).result =
          (if 0 < m'.rows ∧ 0 < m'.cols then
            .ok (CvImage.toImageMsg ⟨image.header, declaredPart image.format, m'⟩)
           else .error (.zero_dimension m'.rows m'.cols))) ∧
      (∀ w, C.cvtColor m code = .error w →
        (generalDecode C image (declaredPart image.format) (descriptorPart image.format)
          decode_flag).result = .error (.library w)) := by
    intro code hsel
    rw [hsel] at hmain
    obtain ⟨hcalls, hres⟩ := hmain
    refine ⟨by rw [hcalls]; rfl, fun m' hm' => ?_, fun w hw => ?_⟩
    · rw [hres, hm']
      exact extractImage_result _
    · rw [hres, hw]
  refine ⟨?_, ?_, ?_⟩
  · cases hsel : selectedConversion (C.isColor (declaredPart image.format))
        (findStr "compressed bgr".toList (descriptorPart image.format)).isSome
        (declaredPart image.format) with
    | none => rw [(hnone hsel).1]; simp
    | some code => rw [(hsome code hsel).1]; simp
  · intro code hcol hcase
    have hsel : selectedConversion (C.isColor (declaredPart image.format))
        (findStr "compressed bgr".toList (descriptorPart image.format)).isSome
        (declaredPart image.format) = some code := by
      unfold selectedConversion
      rw [hcol, if_pos rfl]
      rcases hcase with ⟨hb, ht⟩ | ⟨hb, ht⟩
      · rw [if_pos (hbgr.mpr hb), ht]
      · rw [if_neg (fun h => hb (hbgr.mp h)), ht]
    obtain ⟨hc, hok, herr⟩ := hsome code hsel
    refine ⟨hc, fun m' hm' => ⟨hok m' hm', fun img himg' => ?_⟩, herr⟩
    rw [hok m' hm'] at himg'
    exact himg m' img himg'
  · intro hcase
    have hsel : selectedConversion (C.isColor (declaredPart image.format))
        (findStr "compressed bgr".toList (descriptorPart image.format)).isSome
        (declaredPart image.format) = none := by
      unfold selectedConversion
      rcases hcase with hcol | ⟨hcol, hb, ht⟩ | ⟨hcol, hb, ht⟩
      · rw [hcol]; rfl
      · rw [hcol, if_pos rfl, if_pos (hbgr.mpr hb), ht]
      · rw [hcol, if_pos rfl, if_neg (fun h => hb (hbgr.mp h)), ht]
    obtain ⟨hc, hres⟩ := hnone hsel
    refine ⟨hc, hres, fun img himg' => ?_⟩
    rw [hres] at himg'
    exact himg m img himg'

/-- An instance with the toy libraries on the tag "rgb8; png compressed bgr8":
the conversion BGR->RGB is requested on the decoded matrix and the image
carries the converted bytes. -/
theorem general_decode_color_correction_witness :
    (generalDecode sample.libs ⟨sample.hdr, "rgb8; png compressed bgr8".toList, sample.colorPng⟩
        "rgb8".toList "; png compressed bgr8".toList 0).calls.filterMap Call.conversion
      = [(⟨1, 1, 3, 3, [10, 20, 30]⟩, ColorConversionCode.CV_BGR2RGB)] ∧
    (generalDecode sample.libs ⟨sample.hdr, "rgb8; png compressed bgr8".toList, sample.colorPng⟩
        "rgb8".toList "; png compressed bgr8".toList 0).result
      = .ok ⟨sample.hdr, 1, 1, "rgb8".toList, 0, 3, [30, 20, 10]⟩ :=
  ⟨((general_decode_color_correction sample.libs
      ⟨sample.hdr, "rgb8; png compressed bgr8".toList, sample.colorPng⟩ 0
      ⟨1, 1, 3, 3, [10, 20, 30]⟩ (by decide) rfl).2.1 ColorConversionCode.CV_BGR2RGB rfl
      (Or.inl ⟨by decide, by decide⟩)).1,
   (((general_decode_color_correction sample.libs
      ⟨sample.hdr, "rgb8; png compressed bgr8".toList, sample.colorPng⟩ 0
      ⟨1, 1, 3, 3, [10, 20, 30]⟩ (by decide) rfl).2.1 ColorConversionCode.CV_BGR2RGB rfl
      (Or.inl ⟨by decide, by decide⟩)).2.1 ⟨1, 1, 3, 3, [30, 20, 10]⟩ rfl).1⟩

/-- The geometry of the fast JPEG decode when the sizes fit: for a call of
`decompressJPEG` that returns an image, `hdr` being what the header parse
reported, non-negative values of type `int` for which `height * width * 4`
and `width * 4` stay in the range of `int`, the image has the width and the height
of the header, a row step of `width * c` and exactly `height * width * c` pixel
bytes, which is `step * height`, where `c` is 1 for declared mono8, 3 for rgb8
or bgr8 and 4 for rgba8 or bgra8; for an empty declared encoding the result is
mono8 with `c = 1` when the JPEG colorspace is grayscale and rgb8 with `c = 3`
otherwise; for a non-empty one the encoding of the result is the declared
one. -/
theorem decompressJPEG_geometry_in_range (C : Collaborators) (data : Bytes)
    (source_encoding : CppString) (header : Header) (hdr : JpegHeader) (img : Image)
    (hhdr : C.tjDecompressHeader3 data = some hdr)
    (hw : 0 ≤ hdr.width ∧ hdr.width ≤ INT_MAX) (hh : 0 ≤ hdr.height ∧ hdr.height ≤ INT_MAX)
    (hsize : hdr.height * hdr.width * 4 ≤ INT_MAX) (hstep : hdr.width * 4 ≤ INT_MAX)
    (hret : (decompressJPEG C data source_encoding header).result = .ok (some img)) :
    ∃ c : Nat,
      (img.width : Int) = hdr.width ∧ (img.height : Int) = hdr.height ∧
      (img.step : Int) = hdr.width * c ∧
      (img.data.length : Int) = hdr.height * hdr.width * c ∧
      img.data.length = img.step * img.height ∧
      (source_encoding = "mono8".toList → c = 1) ∧
      (source_encoding = "rgb8".toList ∨ source_encoding = "bgr8".toList → c = 3) ∧
      (source_encoding = "rgba8".toList ∨ source_encoding = "bgra8".toList → c = 4) ∧
      (source_encoding = [] →
        (hdr.jpegColorspace = TJCS_GRAY → c = 1 ∧ img.encoding = "mono8".toList) ∧
        (hdr.jpegColorspace ≠ TJCS_GRAY → c = 3 ∧ img.encoding = "rgb8".toList)) ∧
      (source_encoding ≠ [] → img.encoding = source_encoding) := by
  obtain ⟨c, pf, en, ret, px, hsel, hal, -, rfl⟩ :=
    decompressJPEG_some C data source_encoding header hdr img hhdr hret
  obtain ⟨hc, h1, h3, h4, h0, hne⟩ := pixelLayout_some _ _ _ _ _ hsel
  obtain ⟨a1, a2, -, a4, a5, a6⟩ := allocate_ok _ _ _ _ _ _ hal hc hw.1 hh.1 hsize hstep
    (toUInt32_of_range _ hw.1 hw.2)
  have hwd : (ret.width : Int) = hdr.width := by
    rw [a1]; exact toUInt32_of_range _ hw.1 hw.2
  have hht : (ret.height : Int) = hdr.height := by
    rw [a2]; exact toUInt32_of_range _ hh.1 hh.2
  refine ⟨c.toNat, hwd, hht, ?_, ?_, ?_, ?_, ?_, ?_, ?_, ?_⟩
  · rcases hc with rfl | rfl | rfl <;> simpa using a5
  · show ((writeInto ret.data px).length : Int) = _
    rw [writeInto_length]
    rcases hc with rfl | rfl | rfl <;> simpa using a6
  · show (writeInto ret.data px).length = ret.step * ret.height
    rw [writeInto_length]
    have : (ret.data.length : Int) = (ret.step : Int) * (ret.height : Int) := by
      rw [a6, a5, hht]; ring
    exact_mod_cast this
  · intro h; rw [h1 h]; rfl
  · intro h; rw [h3 h]; rfl
  · intro h; rw [h4 h]; rfl
  · intro h
    refine ⟨fun hg => ?_, fun hg => ?_⟩
    · obtain ⟨hc1, hen⟩ := (h0 h).1 hg
      exact ⟨by rw [hc1]; rfl, by show ret.encoding = _; rw [a4, hen]⟩
    · obtain ⟨hc1, hen⟩ := (h0 h).2 hg
      exact ⟨by rw [hc1]; rfl, by show ret.encoding = _; rw [a4, hen]⟩
  · intro h
    show ret.encoding = _
    rw [a4, hne h]

/-- C2 fails for a tag that starts with the semicolon: the toy grayscale JPEG
with the tag "; jpeg compressed " is decoded by the fast path, declared
encoding empty, and comes back as mono8, which is not the (empty) part of the
tag before the semicolon. -/
theorem decode_encoding_counterexample :
    ';' ∈ "; jpeg compressed ".toList ∧
    declaredPart "; jpeg compressed ".toList = [] ∧
    ∃ img, (decodeCompressedImage sample.libs
        (some ⟨sample.hdr, "; jpeg compressed ".toList, sample.grayJpeg⟩) 0).result = .ok img ∧
      img.encoding = "mono8".toList ∧
      img.encoding ≠ declaredPart "; jpeg compressed ".toList :=
  ⟨by decide, by decide, _, rfl, by decide, by decide⟩

/-- C2, amended: for a tag that contains a semicolon, an image returned by
`decodeCompressedImage` has the part of the tag before the first semicolon as
its encoding whenever that part is not empty, whichever path produced the
image; when that part is empty, an image of the general decode (the run invoked
`cv::imdecode`) has the empty encoding and an image of the fast JPEG path has
the autodetected encoding, mono8 or rgb8. -/
theorem decode_encoding_declared (C : Collaborators) (image : CompressedImage) (flag : Int)
    (img : Image) (hsemi : ';' ∈ image.format)
    (hret : (decodeCompressedImage C (some image) flag).result = .ok img) :
    (declaredPart image.format ≠ [] → img.encoding = declaredPart image.format) ∧
    (declaredPart image.format = [] →
      (Call.imdecode image.data flag ∈ (decodeCompressedImage C (some image) flag).calls →
        img.encoding = []) ∧
      (Call.imdecode image.data flag ∉ (decodeCompressedImage C (some image) flag).calls →
        img.encoding = "mono8".toList ∨ img.encoding = "rgb8".toList)) := by
  obtain ⟨i, hf⟩ := findChar_isSome_of_mem _ hsemi
  have hsplit := splitFormat_of_mem _ hsemi
  have hd1 : (splitFormat image.format).1 = declaredPart image.format := by rw [hsplit]; rfl
  have hgen : ∀ im, (generalDecode C image (splitFormat image.format).1
      (splitFormat image.format).2 flag).result = .ok im →
      im.encoding = declaredPart image.format := by
    intro im him
    rw [← hd1]
    exact generalDecode_encoding_declared C image _ _ flag im i hf him
  have himd := imdecode_mem_generalDecode C image (splitFormat image.format).1
    (splitFormat image.format).2 flag
  rcases decode_cases C image flag with ⟨-, hrun⟩ | ⟨-, ex, -, hrun⟩ | ⟨-, -, hrun⟩ |
      ⟨-, decoded, hfast, hrun⟩
  · rw [hrun] at hret ⊢
    have := hgen img hret
    exact ⟨fun _ => this, fun h0 => ⟨fun _ => by rw [this, h0], fun hn => absurd himd hn⟩⟩
  · rw [hrun] at hret; cases hret
  · rw [hrun] at hret ⊢
    have := hgen img hret
    exact ⟨fun _ => this, fun h0 => ⟨fun _ => by rw [this, h0],
      fun hn => absurd (List.mem_append_right _ himd) hn⟩⟩
  · rw [hrun] at hret ⊢
    simp only [Except.ok.injEq] at hret
    subst hret
    obtain ⟨hdr, hhdr⟩ := decompressJPEG_header C _ _ _ _ hfast
    obtain ⟨e1, e2⟩ := decompressJPEG_encoding C _ _ _ hdr _ hhdr hfast
    rw [hd1] at e1 e2
    refine ⟨e1, fun h0 => ⟨fun hin => ?_, fun _ => ?_⟩⟩
    · have := decompressJPEG_calls_turbo C _ _ _ _ hin
      simp [Call.isTurbo] at this
    · by_cases hg : hdr.jpegColorspace = TJCS_GRAY
      · exact Or.inl ((e2 h0).1 hg)
      · exact Or.inr ((e2 h0).2 hg)

/-- An instance on the tag "rgb8; jpeg compressed
bgr8" with the toy color JPEG: the image is rgb8. -/
theorem decode_encoding_declared_witness :
    ∃ img, (decodeCompressedImage sample.libs
        (some ⟨sample.hdr, "rgb8; jpeg compressed bgr8".toList, sample.colorJpeg⟩) 0).result
        = .ok img ∧ img.encoding = "rgb8".toList :=
  ⟨_, rfl, (decode_encoding_declared sample.libs
      ⟨sample.hdr, "rgb8; jpeg compressed bgr8".toList, sample.colorJpeg⟩ 0 _
      (by decide) rfl).1 (by decide)⟩

/-- C3 fails when the payload is a JPEG: for the legacy tag "jpeg" and the toy
color JPEG, which the general codec decodes to 3 channels, the fast path
produces the image and autodetects rgb8, not bgr8. -/
theorem decode_legacy_counterexample :
    ';' ∉ "jpeg".toList ∧
    (∃ m, sample.libs.imdecode sample.colorJpeg 0 = .ok m ∧ m.channels = 3 ∧
      0 < m.rows ∧ 0 < m.cols) ∧
    ∃ img, (decodeCompressedImage sample.libs
        (some ⟨sample.hdr, "jpeg".toList, sample.colorJpeg⟩) 0).result = .ok img ∧
      img.encoding = "rgb8".toList ∧ img.encoding ≠ "bgr8".toList :=
  ⟨by decide, ⟨_, rfl, by decide, by decide, by decide⟩, _, rfl, by decide, by decide⟩

/-- C3, amended: legacy inference.  For a tag without a semicolon and a payload
that the general codec decodes to a matrix of positive dimensions: when the
fast JPEG path is not attempted, or is attempted and returns the null pointer,
`decodeCompressedImage` returns an image with encoding bgr8 if the matrix has
3 channels and mono8 if it has 1 channel; when the fast JPEG path produces the
image, the call returns that image and its encoding is the autodetected one,
mono8 for a grayscale JPEG and rgb8 for any other. -/
theorem decode_legacy_inference (C : Collaborators) (image : CompressedImage) (flag : Int)
    (m : Mat) (hlegacy : ';' ∉ image.format)
    (hdec : C.imdecode image.data flag = .ok m) (hr : 0 < m.rows) (hc : 0 < m.cols) :
    ((¬ startsLikeJPEG image.data ∨
        (decompressJPEG C image.data [] image.header).result = .ok none) →
      (m.channels = 3 → ∃ img, (decodeCompressedImage C (some image) flag).result = .ok img ∧
        img.encoding = "bgr8".toList) ∧
      (m.channels = 1 → ∃ img, (decodeCompressedImage C (some image) flag).result = .ok img ∧
        img.encoding = "mono8".toList)) ∧
    (∀ img hdr, startsLikeJPEG image.data → C.tjDecompressHeader3 image.data = some hdr →
      (decompressJPEG C image.data [] image.header).result = .ok (some img) →
      (decodeCompressedImage C (some image) flag).result = .ok img ∧
      (hdr.jpegColorspace = TJCS_GRAY → img.encoding = "mono8".toList) ∧
      (hdr.jpegColorspace ≠ TJCS_GRAY → img.encoding = "rgb8".toList)) := by
  have hf : findChar ';' image.format = none := (findChar_eq_none_iff _ _).mpr hlegacy
  have hsplit := splitFormat_of_not_mem _ hlegacy
  have hs1 : (splitFormat image.format).1 = [] := by rw [hsplit]
  obtain ⟨g1, g3⟩ := generalDecode_legacy C image (splitFormat image.format).1
    (splitFormat image.format).2 flag m hf hdec hr hc
  have hcases := decode_cases C image flag
  rw [hs1] at hcases
  constructor
  · intro hpre
    have hres : (decodeCompressedImage C (some image) flag).result =
        (generalDecode C image (splitFormat image.format).1 (splitFormat image.format).2
          flag).result := by
      rw [hs1]
      rcases hcases with ⟨-, hrun⟩ | ⟨hj, ex, hfast, -⟩ | ⟨-, -, hrun⟩ | ⟨hj, d, hfast, -⟩
      · rw [hrun]
      · rcases hpre with h | h
        · exact absurd hj h
        · rw [h] at hfast; cases hfast
      · rw [hrun]
      · rcases hpre with h | h
        · exact absurd hj h
        · rw [h] at hfast; cases hfast
    rw [hres]
    exact ⟨fun h3 => ⟨_, g3 h3, rfl⟩, fun h1 => ⟨_, g1 h1, rfl⟩⟩
  · intro img hdr hj hhdr hfast
    obtain ⟨-, e2⟩ := decompressJPEG_encoding C _ _ _ hdr _ hhdr hfast
    refine ⟨?_, (e2 rfl).1, (e2 rfl).2⟩
    rcases hcases with ⟨hn, -⟩ | ⟨-, ex, hfast2, -⟩ | ⟨-, hfast2, -⟩ | ⟨-, d, hfast2, hrun⟩
    · exact absurd hj hn
    · rw [hfast] at hfast2; cases hfast2
    · rw [hfast] at hfast2; cases hfast2
    · rw [hfast] at hfast2
      simp only [Except.ok.injEq, Option.some.injEq] at hfast2
      rw [hrun, hfast2]

/-- An instance on the legacy tag "png" with the
toy PNG of 3 channels: the image is bgr8. -/
theorem decode_legacy_inference_witness :
    ∃ img, (decodeCompressedImage sample.libs
        (some ⟨sample.hdr, "png".toList, sample.colorPng⟩) 0).result = .ok img ∧
      img.encoding = "bgr8".toList :=
  ((decode_legacy_inference sample.libs ⟨sample.hdr, "png".toList, sample.colorPng⟩ 0
      ⟨1, 1, 3, 3, [10, 20, 30]⟩ (by decide) rfl (by decide) (by decide)).1
    (Or.inl (by decide))).1 rfl

/-- C4: the format tag written by `encodeImage`.  Whenever `encodeImage`
succeeds, the method is JPEG or PNG, the bit depth of the encoding is 8 or 16,
and the format of the output is the original encoding of the image, followed
by "; jpeg compressed " or "; png compressed " according to the method,
followed by the intermediate layout: "bgr8" for a color encoding under JPEG,
"bgr8" or "bgr16" (the bit depth) for a color encoding under PNG, nothing for
an encoding that is not a color format. -/
theorem encodeImage_format_tag (C : Collaborators) (message : Image) (flag : Int)
    (params : List Int) (out : CompressedImage)
    (h : (encodeImage C message flag params).result = .ok out) :
    (flag = JPEG ∨ flag = PNG) ∧
    ∃ bd, C.bitDepth message.encoding = .ok bd ∧ (bd = 8 ∨ bd = 16) ∧
      out.format = message.encoding ++
        (if flag = JPEG then "; jpeg compressed ".toList else "; png compressed ".toList) ++
        (if C.isColor message.encoding = true then
          (if flag = JPEG then "bgr8".toList
           else if bd = 8 then "bgr8".toList else "bgr16".toList)
         else []) := by
  obtain ⟨bd, nc, hbd, hnc⟩ := encodeImage_ok_registered C message flag params out h
  rw [encodeImage_registered C message flag params bd nc hbd hnc] at h
  by_cases hm : flag = JPEG ∨ flag = PNG
  · rw [if_pos hm] at h
    by_cases h8 : bd = 8 ∨ bd = 16
    · rw [if_pos h8] at h
      obtain ⟨cv, data, -, -, rfl⟩ := bridgeAndCompress_ok _ _ _ _ _ _ _ h
      exact ⟨hm, bd, hbd, h8, rfl⟩
    · rw [if_neg h8] at h
      split at h <;> cases h
  · rw [if_neg hm] at h
    cases h

/-- An instance on a 16-bit color image under PNG
with the toy libraries: the tag is "rgb16; png compressed bgr16". -/
theorem encodeImage_format_tag_witness :
    ∃ out, (encodeImage sample.libs ⟨sample.hdr, 1, 1, "rgb16".toList, 0, 6, [1, 2, 3, 4, 5, 6]⟩
        PNG []).result = .ok out ∧
      out.format = "rgb16; png compressed bgr16".toList :=
  ⟨_, rfl, by
    obtain ⟨-, bd, hbd, -, hfmt⟩ := encodeImage_format_tag sample.libs
      ⟨sample.hdr, 1, 1, "rgb16".toList, 0, 6, [1, 2, 3, 4, 5, 6]⟩ PNG [] _ rfl
    have hb : bd = 16 := by
      have h16 : sample.libs.bitDepth "rgb16".toList = .ok 16 := rfl
      rw [h16] at hbd
      exact (Except.ok.inj hbd).symm
    subst hb
    rw [hfmt]
    decide⟩

/-- C5: encode rejection.  For an image whose encoding is registered (the
registry knows its bit depth and its channel count): when the method is
neither JPEG nor PNG, `encodeImage` throws "unknown compression type" and
records no call; when the method is JPEG or PNG and the bit depth is neither 8
nor 16, it throws the "requires 8/16-bit" error of the method and records no
call; when the method is JPEG or PNG and the bit depth is 8 or 16, it returns
the compressed image whenever `cv_bridge::toCvShare` and `cv::imencode`
succeed, and an error leaves it only when `toCvShare` throws, `imencode`
throws or `imencode` returns false. -/
theorem encodeImage_rejection (C : Collaborators) (message : Image) (flag : Int)
    (params : List Int) (bd nc : Int) (hbd : C.bitDepth message.encoding = .ok bd)
    (hnc : C.numChannels message.encoding = .ok nc) :
    (flag ≠ JPEG → flag ≠ PNG →
      encodeImage C message flag params = ⟨[], .error .unknown_compression_type⟩) ∧
    (flag = JPEG → bd ≠ 8 → bd ≠ 16 →
      encodeImage C message flag params
        = ⟨[], .error (.jpeg_requires_8_16 message.encoding)⟩) ∧
    (flag = PNG → bd ≠ 8 → bd ≠ 16 →
      encodeImage C message flag params
        = ⟨[], .error (.png_requires_8_16 message.encoding)⟩) ∧
    ((flag = JPEG ∨ flag = PNG) → (bd = 8 ∨ bd = 16) →
      (∀ cv data,
        C.toCvShare message (intermediateLayout (C.isColor message.encoding) flag bd)
          = .ok cv →
        C.imencode (methodExt flag) cv.image params = .ok (some data) →
        ∃ out, (encodeImage C message flag params).result = .ok out ∧ out.data = data) ∧
      (∀ ex, (encodeImage C message flag params).result = .error ex →
        (∃ w, C.toCvShare message (intermediateLayout (C.isColor message.encoding) flag bd)
          = .error w) ∨
        ∃ cv, C.toCvShare message (intermediateLayout (C.isColor message.encoding) flag bd)
            = .ok cv ∧
          ((∃ w, C.imencode (methodExt flag) cv.image params = .error w) ∨
            C.imencode (methodExt flag) cv.image params = .ok none))) := by
  rw [encodeImage_registered C message flag params bd nc hbd hnc]
  refine ⟨?_, ?_, ?_, ?_⟩
  · intro hJ hP
    rw [if_neg (by rintro (h | h); exact hJ h; exact hP h)]
  · intro hJ h8 h16
    rw [if_pos (Or.inl hJ), if_neg (by rintro (h | h); exact h8 h; exact h16 h), if_pos hJ]
  · intro hP h8 h16
    have hJ : ¬ flag = JPEG := by rw [hP]; decide
    rw [if_pos (Or.inr hP), if_neg (by rintro (h | h); exact h8 h; exact h16 h), if_neg hJ]
  · intro hm h8
    rw [if_pos hm, if_pos h8]
    refine ⟨fun cv data hcv hen => ?_, fun ex hex => ?_⟩
    · exact ⟨_, bridgeAndCompress_of_ok _ _ _ _ _ _ cv data hcv hen, rfl⟩
    · exact bridgeAndCompress_error _ _ _ _ _ _ ex hex

/-- An instance on a 32-bit float image under JPEG
with the toy libraries: no call, the 8/16-bit error. -/
theorem encodeImage_rejection_witness :
    encodeImage sample.libs ⟨sample.hdr, 1, 1, "32FC1".toList, 0, 4, [1, 2, 3, 4]⟩ JPEG []
      = ⟨[], .error (.jpeg_requires_8_16 "32FC1".toList)⟩ :=
  (encodeImage_rejection sample.libs ⟨sample.hdr, 1, 1, "32FC1".toList, 0, 4, [1, 2, 3, 4]⟩
    JPEG [] 32 1 rfl rfl).2.1 rfl (by decide) (by decide)

/-- C10: encoder/decoder tag agreement.  For an image whose encoding holds no
semicolon and a method for which `encodeImage` succeeds: the decoder finds the
first semicolon of the produced tag right after the encoding, its split yields
the encoding as `image_encoding`, so the legacy branch is not taken and no
decode of a compressed image that carries the tag ends with "Unsupported
number of channels", whatever the payload, the libraries and the flag; and for
a color encoding the stored-order test of the decoder ("compressed bgr" found
in the part from the semicolon onward) is true. -/
theorem encoder_decoder_tag_agreement (C : Collaborators) (message : Image) (flag : Int)
    (params : List Int) (out : CompressedImage)
    (h : (encodeImage C message flag params).result = .ok out)
    (hsemi : ';' ∉ message.encoding) :
    findChar ';' out.format = some message.encoding.length ∧
    (splitFormat out.format).1 = message.encoding ∧
    (∀ (D : Collaborators) (header : Header) (data : Bytes) (decode_flag n : Int),
      (decodeCompressedImage D (some ⟨header, out.format, data⟩) decode_flag).result
        ≠ .error (.unsupported_channels n)) ∧
    (C.isColor message.encoding = true →
      (findStr "compressed bgr".toList (splitFormat out.format).2).isSome = true ∧
      "compressed bgr".toList <:+: descriptorPart out.format) := by
  obtain ⟨bd, nc, hbd, hnc⟩ := encodeImage_ok_registered C message flag params out h
  rw [encodeImage_registered C message flag params bd nc hbd hnc] at h
  by_cases hm : flag = JPEG ∨ flag = PNG
  swap
  · rw [if_neg hm] at h; cases h
  rw [if_pos hm] at h
  by_cases h8 : bd = 8 ∨ bd = 16
  swap
  · rw [if_neg h8] at h
    split at h <;> cases h
  rw [if_pos h8] at h
  obtain ⟨cv, data, -, -, rfl⟩ := bridgeAndCompress_ok _ _ _ _ _ _ _ h
  have hwords : ∃ rest, methodWords flag = ';' :: rest := by
    unfold methodWords
    split
    · exact ⟨_, rfl⟩
    · exact ⟨_, rfl⟩
  obtain ⟨rest, hrest⟩ := hwords
  have hfmt : message.encoding ++ methodWords flag ++
      intermediateLayout (C.isColor message.encoding) flag bd =
      message.encoding ++ ';' :: (rest ++ intermediateLayout (C.isColor message.encoding) flag bd) := by
    rw [hrest]; simp
  have hfind : findChar ';' (message.encoding ++ methodWords flag ++
      intermediateLayout (C.isColor message.encoding) flag bd) = some message.encoding.length := by
    rw [hfmt]; exact findChar_append_of_not_mem _ _ _ hsemi
  have hsplit : splitFormat (message.encoding ++ methodWords flag ++
      intermediateLayout (C.isColor message.encoding) flag bd) =
      (message.encoding,
        methodWords flag ++ intermediateLayout (C.isColor message.encoding) flag bd) := by
    unfold splitFormat
    rw [hfind]
    simp [substr, substrFrom, List.append_assoc]
  refine ⟨hfind, by rw [hsplit], ?_, ?_⟩
  · intro D header data decode_flag n hbad
    rcases decode_cases D ⟨header, _, data⟩ decode_flag with ⟨-, hrun⟩ | ⟨-, ex, hfast, hrun⟩ |
        ⟨-, -, hrun⟩ | ⟨-, d, -, hrun⟩
    · rw [hrun] at hbad
      rcases generalDecode_error_declared D _ _ _ _ _ _ hfind hbad with ⟨w, hw⟩ | ⟨r, c, hrc⟩
      · cases hw
      · cases hrc
    · rw [hrun] at hbad
      simp only [Except.error.injEq] at hbad
      subst hbad
      cases decompressJPEG_error D _ _ _ _ hfast
    · rw [hrun] at hbad
      rcases generalDecode_error_declared D _ _ _ _ _ _ hfind hbad with ⟨w, hw⟩ | ⟨r, c, hrc⟩
      · cases hw
      · cases hrc
    · rw [hrun] at hbad; cases hbad
  · intro hcol
    have hfound : (findStr "compressed bgr".toList
        (methodWords flag ++ intermediateLayout (C.isColor message.encoding) flag bd)).isSome
        = true := by
      rw [hcol]
      rcases hm with rfl | rfl <;> rcases h8 with rfl | rfl <;> decide
    constructor
    · rw [hsplit]; exact hfound
    · have := splitFormat_of_mem _ ((findChar_eq_none_iff _ _).not_left.mp
        (by rw [hfind]; exact Option.some_ne_none _))
      unfold descriptorPart
      rw [this] at hsplit
      have h2 := congrArg Prod.snd hsplit
      simp only at h2
      rw [h2]
      exact (findStr_isSome_iff _ _).mp hfound

/-- An instance on an 8-bit color image under
JPEG with the toy libraries. -/
theorem encoder_decoder_tag_agreement_witness :
    ∃ out, (encodeImage sample.libs ⟨sample.hdr, 1, 1, "rgb8".toList, 0, 3, [1, 2, 3]⟩
        JPEG []).result = .ok out ∧
      findChar ';' out.format = some 4 ∧ (splitFormat out.format).1 = "rgb8".toList :=
  ⟨_, rfl,
    (encoder_decoder_tag_agreement sample.libs ⟨sample.hdr, 1, 1, "rgb8".toList, 0, 3, [1, 2, 3]⟩
      JPEG [] _ rfl (by decide)).1,
    (encoder_decoder_tag_agreement sample.libs ⟨sample.hdr, 1, 1, "rgb8".toList, 0, 3, [1, 2, 3]⟩
      JPEG [] _ rfl (by decide)).2.1⟩

/-- C9, at the failing input: for the empty parameter list, which is the
default of `encodeImage`, the bound `params.size()-1` wraps to `2^64 - 1`, the
loop body runs with `i = 0` and reads `params[0]`, an index that does not lie
inside the list; the scan does not end with the quality 95, and
`compressJPEG` ends at that read. -/
theorem jpegQualityScan_empty :
    toSizeT ((([] : List Int).length : Int) - 1) = 18446744073709551615 ∧
    (jpegQualityScan []).reads = [0] ∧
    ¬ (0 < ([] : List Int).length) ∧
    (jpegQualityScan []).result = .outside 0 ∧
    (jpegQualityScan []).result ≠ .quality 95 ∧
    ∀ (C : Collaborators) (image : Image),
      (compressJPEG C image []).result = .error (.out_of_range 0) := by
  refine ⟨by decide, by decide, by decide, by decide, by decide, ?_⟩
  intro C image
  rfl

end compressed_image_transport
